import Mathlib

/-
Verification of the masking core of the `general_backend` repository.

The Python modules `masking/mask_utils.py`, `masking/atm_masks.py` and
`utils/xarray_operations_with_alignment.py` are shallowly embedded here:

  * labelled 1-D float arrays become `List ℚ`;
  * a fraction field with an optional nuisance `time` dimension becomes
    `FracField` (`noTime`/`withTime`);
  * a boolean mask (an `xr.DataArray` of dtype bool plus its `attrs`
    dictionary) becomes `Mask`: a `List Bool` and an association list of
    attributes (Python `dict` semantics: update-in-place keeps the key's
    position, a new key is appended);
  * raised Python exceptions become `Except PyErr`, with the exception
    class and message recorded.

Python's `dict` is modelled by `pyGet`/`pySet` on association lists.
-/

set_option autoImplicit false

namespace GeneralBackend

/-- Python exception kinds raised by the masking core, with their messages. -/
inductive PyErr where
  | typeError (msg : String)
  | valueError (msg : String)
  | keyError (msg : String)
  | indexError (msg : String)
  deriving DecidableEq, Repr

/-- Values stored in a mask's `attrs` dictionary: strings or numbers
(the source stores `mask_name`, `mask_type`, `mask_description` as strings
and `fraction_threshold` as a float). -/
inductive AttrValue where
  | str (s : String)
  | num (q : ℚ)
  deriving DecidableEq, Repr

/-- Python `d.get(k)` on a dictionary modelled as an association list. -/
def pyGet {κ α : Type} [DecidableEq κ] : List (κ × α) → κ → Option α
  | [], _ => none
  | (k2, v) :: rest, k => if k2 = k then some v else pyGet rest k

/-- Python `d[k] = v`: updating an existing key keeps its position, a new
key is appended at the end (CPython 3.7+ insertion-order semantics). -/
def pySet {κ α : Type} [DecidableEq κ] : List (κ × α) → κ → α → List (κ × α)
  | [], k, v => [(k, v)]
  | (k2, v2) :: rest, k, v =>
      if k2 = k then (k2, v) :: rest else (k2, v2) :: pySet rest k v

@[simp] theorem pyGet_nil {κ α : Type} [DecidableEq κ] (k : κ) :
    pyGet ([] : List (κ × α)) k = none := rfl

@[simp] theorem pyGet_cons {κ α : Type} [DecidableEq κ] (k2 k : κ) (v : α)
    (rest : List (κ × α)) :
    pyGet ((k2, v) :: rest) k = if k2 = k then some v else pyGet rest k := rfl

@[simp] theorem pySet_nil {κ α : Type} [DecidableEq κ] (k : κ) (v : α) :
    pySet ([] : List (κ × α)) k v = [(k, v)] := rfl

@[simp] theorem pySet_cons {κ α : Type} [DecidableEq κ] (k2 k : κ) (v2 v : α)
    (rest : List (κ × α)) :
    pySet ((k2, v2) :: rest) k v =
      if k2 = k then (k2, v) :: rest else (k2, v2) :: pySet rest k v := rfl

/-- Propagation of a raised exception through sequenced Python statements is
`Except` bind: a successful statement feeds its value onward. -/
@[simp] theorem except_bind_ok {ε α β : Type} (a : α) (f : α → Except ε β) :
    (Except.ok (ε := ε) a >>= f) = f a := rfl

/-- A raised exception skips the statements after it. -/
@[simp] theorem except_bind_error {ε α β : Type} (e : ε) (f : α → Except ε β) :
    ((Except.error e : Except ε α) >>= f) = .error e := rfl

instance {ε α : Type} [DecidableEq ε] [DecidableEq α] : DecidableEq (Except ε α) :=
  fun a b =>
    match a, b with
    | .ok x, .ok y => if h : x = y then .isTrue (by simp [h]) else .isFalse (by simp [h])
    | .error e, .error f => if h : e = f then .isTrue (by simp [h]) else .isFalse (by simp [h])
    | .ok _, .error _ => .isFalse (by simp)
    | .error _, .ok _ => .isFalse (by simp)

/-- A boolean mask: the boolean data together with its attribute dictionary. -/
structure Mask where
  data : List Bool
  attrs : List (String × AttrValue)
  deriving DecidableEq, Repr

/-! ## mask_utils._range_mode -/

/-- The `range_modes` list of `_range_mode` (mask_utils.py line 106). -/
def range_modes : List String :=
  ["inclusive", "exclusive", "inclusive_min", "inclusive_max"]

/-- Embedding of `mask_utils._range_mode`.  The `min_max_tuple` argument is a
pair by type, so the source's `isinstance(..., tuple)` and length-two checks
cannot fail here.  The `'inclusive' in range_mode` branch of the source only
logs a warning (the bound computation is commented out), after which the
exclusive filter `dim_array.where((dim_array > min) & (dim_array < max),
drop=True)` runs for every mode. -/
def _range_mode (min_max_tuple : ℚ × ℚ) (dim_array : List ℚ)
    (_dim_min_max : ℚ × ℚ) (range_mode : String) : Except PyErr (List ℚ) :=
  if range_mode ∈ range_modes then
    .ok (dim_array.filter (fun v =>
      decide (min_max_tuple.1 < v) && decide (v < min_max_tuple.2)))
  else
    .error (.valueError ("Invalid range_mode '" ++ range_mode ++
      "'. Must be one of ['inclusive', 'exclusive', 'inclusive_min', 'inclusive_max']."))

/-- C2: for every grid coordinate sequence, every (min,max) tuple and range
mode `exclusive`, the range resolver returns exactly the coordinate values
`v` of the grid with `min < v < max`; values equal to `min` or `max` are
excluded even when present on the grid. -/
theorem range_mode_exclusive_exact (mn mx : ℚ) (grid : List ℚ) (bnd : ℚ × ℚ) :
    _range_mode (mn, mx) grid bnd "exclusive" =
      .ok (grid.filter (fun v => decide (mn < v) && decide (v < mx))) ∧
    ∀ v : ℚ, v ∈ grid.filter (fun v => decide (mn < v) && decide (v < mx)) ↔
      (v ∈ grid ∧ mn < v ∧ v < mx) := by
  constructor
  · have h : "exclusive" ∈ range_modes := by decide
    simp [_range_mode, h]
  · intro v
    simp [List.mem_filter, and_assoc]

/-- C3: for every (min,max) tuple, grid sequence and domain bound, each of
the four range modes produces output identical to `exclusive` on the same
input (all four modes currently behave as the exclusive open interval). -/
theorem range_mode_all_modes_exclusive (mn mx : ℚ) (grid : List ℚ)
    (bnd : ℚ × ℚ) (mode : String) (h : mode ∈ range_modes) :
    _range_mode (mn, mx) grid bnd mode = _range_mode (mn, mx) grid bnd "exclusive" := by
  have hex : "exclusive" ∈ range_modes := by decide
  simp [_range_mode, h, hex]

/-- Witness for C3 at the concrete mode `inclusive` on a concrete grid. -/
theorem range_mode_all_modes_exclusive_witness :
    "inclusive" ∈ range_modes ∧
    _range_mode (0, 1) [0, 1/2, 1] (0, 1) "inclusive" =
      _range_mode (0, 1) [0, 1/2, 1] (0, 1) "exclusive" :=
  ⟨by decide, range_mode_all_modes_exclusive 0 1 [0, 1/2, 1] (0, 1) "inclusive" (by decide)⟩

/-! ## Surface-type mask builders (atm_masks.create_sea_mask / create_land_mask) -/

/-- A fraction field: a 1-D float array, optionally carrying a nuisance
`time` dimension (`withTime slices` is time-major: one spatial slice per
time step). -/
inductive FracField where
  | noTime (vals : List ℚ)
  | withTime (slices : List (List ℚ))
  deriving DecidableEq, Repr

/-- Embedding of `xr.DataArray.squeeze(dim="time")` as used by
`create_sea_mask`: keeps the single slice when the time dimension has
length one and raises `ValueError` otherwise. -/
def squeeze_time (slices : List (List ℚ)) : Except PyErr (List ℚ) :=
  match slices with
  | [s] => .ok s
  | _ => .error (.valueError
      "cannot select a dimension to squeeze out which has length greater than one")

/-- Embedding of `xr.DataArray.isel(time=0, drop=True)` as used by
`create_land_mask`: the first time slice, an `IndexError` on an empty
time dimension. -/
def isel_time0 (slices : List (List ℚ)) : Except PyErr (List ℚ) :=
  match slices with
  | [] => .error (.indexError "index 0 is out of bounds for axis time")
  | s :: _ => .ok s

/-- Embedding of `mask_utils.threshold_float_mask` composed with
`boolean_mask`: strictly-above-threshold cells become `True`. -/
def threshold_float_mask (da : List ℚ) (threshold : ℚ) : List Bool :=
  da.map (fun v => decide (v > threshold))

/-- Rendering of Python's `f"{x:.1f}"` used for the threshold percentage in
the surface-mask descriptions (one decimal digit; the source formats a
float, this model rounds the rational). -/
def format_fixed1 (q : ℚ) : String :=
  let n : ℤ := round (q * 10)
  toString (n / 10) ++ "." ++ toString (n % 10).natAbs

/-- Embedding of `atm_masks.create_sea_mask`.  Note the source collapses a
`time` dimension with `squeeze(dim="time")` here (length-one only), unlike
`create_land_mask` which uses `isel(time=0)`. -/
def create_sea_mask (fraction_threshold : ℚ) (sea_frac_data : Option FracField)
    (land_frac_data : Option FracField) : Except PyErr Mask := do
  let sea_vals : List ℚ ←
    match sea_frac_data with
    | none =>
      match land_frac_data with
      | none => .error (.valueError "Both sea_frac_data and land_frac_data are None.")
      | some lf => do
        let land_vals ← match lf with
          | .withTime slices => squeeze_time slices
          | .noTime vals => .ok vals
        .ok (land_vals.map (fun x => 1 - x))
    | some sf =>
      match sf with
      | .withTime slices => squeeze_time slices
      | .noTime vals => .ok vals
  let thresholded := threshold_float_mask sea_vals fraction_threshold
  .ok { data := thresholded
        attrs := [("mask_name", .str "sea_surface_mask"),
                  ("fraction_threshold", .num fraction_threshold),
                  ("mask_type", .str "surface_type_mask"),
                  ("mask_description", .str
                    ("A mask indicating the presence of sea surface type based on a fraction threshold of "
                      ++ format_fixed1 (fraction_threshold * 100) ++ " %."))] }

/-- Embedding of `atm_masks.create_land_mask`.  The complementary path
computes `1 - sea_frac`; both paths collapse a `time` dimension with
`isel(time=0, drop=True)` (the second check at source line 290 also covers
directly supplied land data). -/
def create_land_mask (fraction_threshold : ℚ) (land_frac_data : Option FracField)
    (sea_frac_data : Option FracField) : Except PyErr Mask := do
  let land0 : FracField ←
    match land_frac_data with
    | none =>
      match sea_frac_data with
      | none => .error (.valueError "Both land_frac_data and sea_frac_data are None.")
      | some sf => do
        let sea_vals ← match sf with
          | .withTime slices => isel_time0 slices
          | .noTime vals => .ok vals
        .ok (FracField.noTime (sea_vals.map (fun x => 1 - x)))
    | some lf => .ok lf
  let land_vals ← match land0 with
    | .withTime slices => isel_time0 slices
    | .noTime vals => .ok vals
  let thresholded := threshold_float_mask land_vals fraction_threshold
  .ok { data := thresholded
        attrs := [("mask_name", .str "land_surface_mask"),
                  ("fraction_threshold", .num fraction_threshold),
                  ("mask_type", .str "surface_type_mask"),
                  ("mask_description", .str
                    ("A mask indicating the presence of land surface type based on a fraction threshold of "
                      ++ format_fixed1 (fraction_threshold * 100) ++ " %."))] }

/-- C8: `create_land_mask` with only sea-fraction data thresholds
`1 - sea_frac` strictly (cells with `1 - v > t`); a land fraction exactly
equal to the threshold yields `False`; sea fractions `[0.3, 0.9]` with
threshold `0.8` yield the mask `[False, False]`. -/
theorem create_land_mask_from_sea_strict (t : ℚ) (sea : List ℚ) :
    create_land_mask t none (some (.noTime sea)) =
      .ok { data := sea.map (fun v => decide (1 - v > t))
            attrs := [("mask_name", .str "land_surface_mask"),
                      ("fraction_threshold", .num t),
                      ("mask_type", .str "surface_type_mask"),
                      ("mask_description", .str
                        ("A mask indicating the presence of land surface type based on a fraction threshold of "
                          ++ format_fixed1 (t * 100) ++ " %."))] } ∧
    (create_land_mask t (some (.noTime [t])) none).toOption.map Mask.data = some [false] ∧
    (create_land_mask (8/10) none (some (.noTime [3/10, 9/10]))).toOption.map Mask.data =
      some [false, false] := by
  refine ⟨?_, ?_, by with_unfolding_all decide⟩
  · simp [create_land_mask, threshold_float_mask, isel_time0, List.map_map, Function.comp_def]
  · simp [create_land_mask, threshold_float_mask, Except.toOption, lt_self_iff_false]

/-- C6 (amended): `create_land_mask` collapses a time dimension of any
positive length to its first slice (direct or complementary input), and
`create_sea_mask` does so only for a time dimension of length one; with two
or more time steps `create_sea_mask` raises the `squeeze` `ValueError`
instead. -/
theorem time_dimension_collapse_amended :
    (∀ (t : ℚ) (s : List ℚ) (rest : List (List ℚ)),
      create_land_mask t (some (.withTime (s :: rest))) none =
        create_land_mask t (some (.noTime s)) none) ∧
    (∀ (t : ℚ) (s : List ℚ) (rest : List (List ℚ)),
      create_land_mask t none (some (.withTime (s :: rest))) =
        create_land_mask t none (some (.noTime s))) ∧
    (∀ (t : ℚ) (s : List ℚ),
      create_sea_mask t (some (.withTime [s])) none =
        create_sea_mask t (some (.noTime s)) none ∧
      create_sea_mask t none (some (.withTime [s])) =
        create_sea_mask t none (some (.noTime s))) ∧
    (∀ (t : ℚ) (slices : List (List ℚ)), 2 ≤ slices.length →
      create_sea_mask t (some (.withTime slices)) none =
        .error (.valueError
          "cannot select a dimension to squeeze out which has length greater than one")) := by
  refine ⟨fun t s rest => ?_, fun t s rest => ?_, fun t s => ⟨rfl, rfl⟩, fun t slices h => ?_⟩
  · simp [create_land_mask, isel_time0]
  · simp [create_land_mask, isel_time0]
  · match slices, h with
    | s1 :: s2 :: rest, _ => rfl

/-- Witness for C6 (amended) at concrete inputs: a two-step time dimension
collapses for the land mask and raises for the sea mask. -/
theorem time_dimension_collapse_amended_witness :
    create_land_mask (8/10) (some (.withTime [[9/10], [1/10]])) none =
      create_land_mask (8/10) (some (.noTime [9/10])) none ∧
    2 ≤ ([[9/10], [1/10]] : List (List ℚ)).length ∧
    create_sea_mask (8/10) (some (.withTime [[9/10], [1/10]])) none =
      .error (.valueError
        "cannot select a dimension to squeeze out which has length greater than one") :=
  ⟨time_dimension_collapse_amended.1 (8/10) [9/10] [[1/10]], by decide,
    time_dimension_collapse_amended.2.2.2 (8/10) [[9/10], [1/10]] (by decide)⟩

/-- C6 (counterexample): with a time dimension of length two the claim fails
for `create_sea_mask`, which raises a `ValueError` from `squeeze` instead of
thresholding the first slice. -/
theorem create_sea_mask_time_len2_counterexample :
    create_sea_mask (8/10) (some (.withTime [[9/10], [1/10]])) none =
      .error (.valueError
        "cannot select a dimension to squeeze out which has length greater than one") ∧
    create_land_mask (8/10) (some (.withTime [[9/10], [1/10]])) none =
      .ok { data := [true]
            attrs := [("mask_name", .str "land_surface_mask"),
                      ("fraction_threshold", .num (8/10)),
                      ("mask_type", .str "surface_type_mask"),
                      ("mask_description", .str
                        ("A mask indicating the presence of land surface type based on a fraction threshold of "
                          ++ format_fixed1 ((8/10) * 100) ++ " %."))] } := by
  exact ⟨rfl, by with_unfolding_all rfl⟩

/-! ## Mask combinator (mask_utils._combine_attributes_masks and friends) -/

/-- Rendering of an attribute value in an f-string (`f"{name}: {val}"`). -/
def attr_text : AttrValue → String
  | .str s => s
  | .num q => toString q

/-- The source's `mask.attrs.get('mask_name', 'unknown_mask')`: the value
used to key each mask's contribution in the merged attribute dictionary. -/
def mask_name_of (m : Mask) : AttrValue :=
  (pyGet m.attrs "mask_name").getD (.str "unknown_mask")

/-- One iteration of the collection loop of `_combine_attributes_masks`
(mask_utils.py lines 244-259): store `value` under key `attr` of the outer
dictionary, keyed inside by the mask's name. -/
def insert_attr_contribution (acc : List (String × List (AttrValue × AttrValue)))
    (attr : String) (name value : AttrValue) :
    List (String × List (AttrValue × AttrValue)) :=
  pySet acc attr (pySet ((pyGet acc attr).getD []) name value)

/-- The body of the inner `for attr, value in mask.attrs.items()` loop: the
`mask_name` attribute is skipped, every other attribute is stored.  The
source's bytes-decoding step has no counterpart here (attribute values are
never bytes in this model). -/
def collect_step (name : AttrValue) (acc2 : List (String × List (AttrValue × AttrValue)))
    (kv : String × AttrValue) : List (String × List (AttrValue × AttrValue)) :=
  if kv.1 = "mask_name" then acc2
  else insert_attr_contribution acc2 kv.1 name kv.2

/-- Collection of one mask's attributes (the inner loop folded). -/
def collect_mask_attrs (acc : List (String × List (AttrValue × AttrValue)))
    (m : Mask) : List (String × List (AttrValue × AttrValue)) :=
  m.attrs.foldl (collect_step (mask_name_of m)) acc

/-- Collection over all masks (the outer `for mask in masks` loop). -/
def collect_attrs (masks : List Mask) : List (String × List (AttrValue × AttrValue)) :=
  masks.foldl collect_mask_attrs []

/-- Post-processing of one collected attribute (mask_utils.py lines
262-286): a single distinct value is kept verbatim, several distinct values
are joined into an `"<intersection|union> of:\n<name>: <value>, ..."`
string, and an unknown combination method raises `ValueError`. -/
def combine_entry (combination_method : String)
    (inner : List (AttrValue × AttrValue)) : Except PyErr AttrValue :=
  let vals := inner.map Prod.snd
  let all_same : Bool :=
    match vals with
    | [] => false
    | v :: rest => rest.all (fun w => decide (w = v))
  if all_same then
    .ok (vals.headD (.str "unknown"))
  else
    let values_str := String.intercalate ",\n"
      (inner.map (fun nv => attr_text nv.1 ++ ": " ++ attr_text nv.2))
    if combination_method = "intersection" then
      .ok (.str ("intersection of:\n" ++ values_str))
    else if combination_method = "union" then
      .ok (.str ("union of:\n" ++ values_str))
    else
      .error (.valueError ("Unknown combination_method '" ++ combination_method ++ "'"))

/-- The post-processing `for attr in list(attributes.keys())` loop, rewriting
each collected entry in place (an unknown method raises out of the loop). -/
def post_process (combination_method : String) :
    List (String × List (AttrValue × AttrValue)) → Except PyErr (List (String × AttrValue))
  | [] => .ok []
  | (k, inner) :: rest => do
    let v ← combine_entry combination_method inner
    let tail ← post_process combination_method rest
    .ok ((k, v) :: tail)

/-- Embedding of `mask_utils._combine_attributes_masks`. -/
def _combine_attributes_masks (masks : List Mask) (combination_method : String) :
    Except PyErr (List (String × AttrValue)) :=
  post_process combination_method (collect_attrs masks)

/-- Elementwise `&` of two boolean arrays. -/
def and_data (d1 d2 : List Bool) : List Bool := List.zipWith and d1 d2

/-- Elementwise `|` of two boolean arrays. -/
def or_data (d1 d2 : List Bool) : List Bool := List.zipWith or d1 d2

/-- Embedding of `mask_utils.intersection_of_masks`.  The result pairs the
returned mask with the post-call state of the input list, because the
source aliases: for a single input `combined_mask` *is* `masks[0]`, so the
final `combined_mask.attrs = attributes` statement rewrites the input
object's attribute dictionary; with two or more inputs `combined_mask` is a
fresh array produced by `&` and the inputs are untouched. -/
def intersection_of_masks (masks : List Mask) : Except PyErr (Mask × List Mask) :=
  match masks with
  | [] => .error (.valueError "At least one mask must be provided.")
  | m0 :: rest => do
    let combined_data := rest.foldl (fun d m => and_data d m.data) m0.data
    let attributes ← _combine_attributes_masks (m0 :: rest) "intersection"
    let result : Mask := { data := combined_data, attrs := attributes }
    if rest.isEmpty then .ok (result, [result]) else .ok (result, m0 :: rest)

/-- Embedding of `mask_utils.union_of_masks`; the same aliasing note as for
`intersection_of_masks` applies. -/
def union_of_masks (masks : List Mask) : Except PyErr (Mask × List Mask) :=
  match masks with
  | [] => .error (.valueError "At least one mask must be provided.")
  | m0 :: rest => do
    let combined_data := rest.foldl (fun d m => or_data d m.data) m0.data
    let attributes ← _combine_attributes_masks (m0 :: rest) "union"
    let result : Mask := { data := combined_data, attrs := attributes }
    if rest.isEmpty then .ok (result, [result]) else .ok (result, m0 :: rest)

/-! ## Dictionary lemmas and the singleton combination (claim C1) -/

theorem pyGet_append {κ α : Type} [DecidableEq κ] (l1 l2 : List (κ × α)) (k : κ) :
    pyGet (l1 ++ l2) k = (pyGet l1 k).or (pyGet l2 k) := by
  induction l1 with
  | nil => simp
  | cons hd tl ih =>
    obtain ⟨k2, v⟩ := hd
    by_cases h : k2 = k <;> simp [h, ih]

theorem pySet_of_get_none {κ α : Type} [DecidableEq κ] (l : List (κ × α)) (k : κ)
    (v : α) (h : pyGet l k = none) : pySet l k v = l ++ [(k, v)] := by
  induction l with
  | nil => simp
  | cons hd tl ih =>
    obtain ⟨k2, v2⟩ := hd
    by_cases hk : k2 = k
    · simp [hk] at h
    · simp [hk] at h ⊢
      exact ih h

theorem foldl_collect_step (name : AttrValue) (l : List (String × AttrValue)) :
    ∀ acc : List (String × List (AttrValue × AttrValue)),
      (l.map Prod.fst).Nodup →
      (∀ kv ∈ l, pyGet acc kv.1 = none) →
      l.foldl (collect_step name) acc =
        acc ++ (l.filter (fun kv => decide (kv.1 ≠ "mask_name"))).map
          (fun kv => (kv.1, [(name, kv.2)])) := by
  induction l with
  | nil => intro acc _ _; simp
  | cons hd tl ih =>
    intro acc hnodup hdisj
    obtain ⟨k, v⟩ := hd
    have hnodup' : (tl.map Prod.fst).Nodup := (List.nodup_cons.mp (by simpa using hnodup)).2
    have hknotin : k ∉ tl.map Prod.fst := (List.nodup_cons.mp (by simpa using hnodup)).1
    rw [List.foldl_cons]
    by_cases hk : k = "mask_name"
    · rw [show collect_step name acc (k, v) = acc from by simp [collect_step, hk]]
      rw [ih acc hnodup' (fun kv hkv => hdisj kv (List.mem_cons_of_mem _ hkv))]
      simp [hk]
    · have hacc : pyGet acc k = none := hdisj (k, v) (by simp)
      have hstep : collect_step name acc (k, v) = acc ++ [(k, [(name, v)])] := by
        simp only [collect_step, insert_attr_contribution, hacc, if_neg hk]
        rw [pySet_of_get_none acc k _ hacc]
        rfl
      rw [hstep]
      rw [ih (acc ++ [(k, [(name, v)])]) hnodup' ?_]
      · simp [hk, List.append_assoc]
      · intro kv hkv
        rw [pyGet_append, hdisj kv (List.mem_cons_of_mem _ hkv)]
        have hne : k ≠ kv.1 := by
          intro he
          exact hknotin (he ▸ List.mem_map_of_mem Prod.fst hkv)
        simp [hne]

theorem combine_entry_singleton (method : String) (name v : AttrValue) :
    combine_entry method [(name, v)] = .ok v := by
  simp [combine_entry]

theorem post_process_singleton_entries (method : String) (name : AttrValue)
    (l : List (String × AttrValue)) :
    post_process method (l.map (fun kv => (kv.1, [(name, kv.2)]))) = .ok l := by
  induction l with
  | nil => rfl
  | cons hd tl ih =>
    obtain ⟨k, v⟩ := hd
    simp [post_process, combine_entry_singleton, ih]

theorem combine_attributes_masks_singleton (method : String) (A : Mask)
    (h : (A.attrs.map Prod.fst).Nodup) :
    _combine_attributes_masks [A] method =
      .ok (A.attrs.filter (fun kv => decide (kv.1 ≠ "mask_name"))) := by
  unfold _combine_attributes_masks collect_attrs
  rw [List.foldl_cons, List.foldl_nil]
  unfold collect_mask_attrs
  rw [foldl_collect_step (mask_name_of A) A.attrs [] h (fun kv _ => rfl)]
  rw [List.nil_append]
  exact post_process_singleton_entries method (mask_name_of A) _

/-- C1 (amended): `intersection_of_masks(A)` with a single mask returns the
same object as `A` with the same boolean data, but its attribute dictionary
is replaced by the merge output — `A`'s attributes with the `mask_name`
entry removed — and, because the returned object *is* `A`, the input is
mutated in the same way; with two or more masks the inputs are returned
unmodified. -/
theorem intersection_of_masks_singleton (A : Mask)
    (h : (A.attrs.map Prod.fst).Nodup) :
    intersection_of_masks [A] =
      .ok ({ data := A.data, attrs := A.attrs.filter (fun kv => decide (kv.1 ≠ "mask_name")) },
        [{ data := A.data, attrs := A.attrs.filter (fun kv => decide (kv.1 ≠ "mask_name")) }]) ∧
    ∀ (masks : List Mask) (res : Mask × List Mask), 2 ≤ masks.length →
      intersection_of_masks masks = .ok res → res.2 = masks := by
  constructor
  · simp only [intersection_of_masks]
    rw [combine_attributes_masks_singleton "intersection" A h]
    simp
  · intro masks res hlen hok
    match masks, hlen with
    | m0 :: m1 :: rest, _ =>
      simp only [intersection_of_masks] at hok
      cases hcomb : _combine_attributes_masks (m0 :: m1 :: rest) "intersection" with
      | error e => rw [hcomb] at hok; simp at hok
      | ok attrs =>
        rw [hcomb] at hok
        simp [List.isEmpty] at hok
        rw [← hok]

/-- Witness for C1 (amended): a concrete singleton call and a concrete
two-mask call. -/
theorem intersection_of_masks_singleton_witness :
    intersection_of_masks [{ data := [true], attrs := [("mask_name", .str "A"), ("mask_description", .str "d")] }] =
      .ok ({ data := [true], attrs := [("mask_description", AttrValue.str "d")] },
        [{ data := [true], attrs := [("mask_description", AttrValue.str "d")] }]) ∧
    intersection_of_masks
        [{ data := [true], attrs := [("mask_name", .str "A"), ("mask_description", .str "d")] },
         { data := [true], attrs := [("mask_name", .str "B"), ("mask_description", .str "e")] }] =
      .ok ({ data := [true],
             attrs := [("mask_description", .str ("intersection of:\nA: d,\nB: e"))] },
        [{ data := [true], attrs := [("mask_name", .str "A"), ("mask_description", .str "d")] },
         { data := [true], attrs := [("mask_name", .str "B"), ("mask_description", .str "e")] }]) := by
  constructor
  · have := (intersection_of_masks_singleton
      { data := [true], attrs := [("mask_name", .str "A"), ("mask_description", .str "d")] }
      (by decide)).1
    simpa using this
  · with_unfolding_all decide

/-- C1 (counterexample): for a mask `A` carrying a `mask_name` attribute the
claim fails — the singleton combination hands back `A` with its attribute
map changed (the `mask_name` entry is gone), both on the returned object and
on the input object after the call. -/
theorem intersection_of_masks_singleton_counterexample :
    intersection_of_masks [{ data := [true], attrs := [("mask_name", .str "A"), ("mask_description", .str "d")] }] =
      .ok ({ data := [true], attrs := [("mask_description", AttrValue.str "d")] },
        [{ data := [true], attrs := [("mask_description", AttrValue.str "d")] }]) ∧
    ([("mask_description", AttrValue.str "d")] : List (String × AttrValue)) ≠
      [("mask_name", .str "A"), ("mask_description", .str "d")] := by
  exact ⟨by with_unfolding_all decide, by decide⟩

/-! ## Combined attribute strings (claim C4) -/

@[simp] theorem intercalate_pair (sep a b : String) :
    String.intercalate sep [a, b] = a ++ sep ++ b := rfl

theorem pyGet_pySet_ne {κ α : Type} [DecidableEq κ] (l : List (κ × α)) (k1 k : κ)
    (v : α) (h : k1 ≠ k) : pyGet (pySet l k1 v) k = pyGet l k := by
  induction l with
  | nil => simp [h]
  | cons hd tl ih =>
    obtain ⟨k2, v2⟩ := hd
    by_cases hk21 : k2 = k1
    · subst hk21
      simp [h]
    · simp only [pySet_cons, if_neg hk21]
      by_cases hk2 : k2 = k <;> simp [hk2, ih]

theorem pyGet_none_of_not_mem {κ α : Type} [DecidableEq κ] (l : List (κ × α)) (k : κ)
    (h : k ∉ l.map Prod.fst) : pyGet l k = none := by
  induction l with
  | nil => simp
  | cons hd tl ih =>
    obtain ⟨k2, v2⟩ := hd
    rw [List.map_cons, List.mem_cons] at h
    push_neg at h
    simp [Ne.symm h.1, ih h.2]

theorem pyGet_pySet_self {κ α : Type} [DecidableEq κ] (l : List (κ × α)) (k : κ) (v : α) :
    pyGet (pySet l k v) k = some v := by
  induction l with
  | nil => simp
  | cons hd tl ih =>
    obtain ⟨k2, v2⟩ := hd
    by_cases hk : k2 = k <;> simp [hk, ih]

/-- Reading one key of the outer dictionary after one mask's collection
loop: a key the mask does not carry (or `mask_name`) is untouched, a
carried key has that mask's contribution inserted into its inner
dictionary (keys are unique, as in a Python `dict`). -/
theorem collect_fold_pyGet (name : AttrValue) (attrs : List (String × AttrValue)) :
    ∀ (acc : List (String × List (AttrValue × AttrValue))) (k : String),
      (attrs.map Prod.fst).Nodup → k ≠ "mask_name" →
      pyGet (attrs.foldl (collect_step name) acc) k =
        match pyGet attrs k with
        | none => pyGet acc k
        | some v => some (pySet ((pyGet acc k).getD []) name v) := by
  induction attrs with
  | nil => intro acc k _ _; simp
  | cons hd tl ih =>
    intro acc k hnodup hk
    obtain ⟨k1, v1⟩ := hd
    have hnodup2 : (tl.map Prod.fst).Nodup := (List.nodup_cons.mp (by simpa using hnodup)).2
    have hk1notin : k1 ∉ tl.map Prod.fst := (List.nodup_cons.mp (by simpa using hnodup)).1
    rw [List.foldl_cons]
    by_cases hk1m : k1 = "mask_name"
    · rw [show collect_step name acc (k1, v1) = acc from by simp [collect_step, hk1m]]
      rw [ih acc k hnodup2 hk]
      have hk1k : ¬ (k1 = k) := by
        intro he
        exact hk (he ▸ hk1m)
      simp [hk1k]
    · have hstep : collect_step name acc (k1, v1) =
          pySet acc k1 (pySet ((pyGet acc k1).getD []) name v1) := by
        simp [collect_step, insert_attr_contribution, hk1m]
      rw [hstep, ih _ k hnodup2 hk]
      by_cases hk1k : k1 = k
      · subst hk1k
        rw [pyGet_none_of_not_mem tl k1 hk1notin]
        simp [pyGet_pySet_self]
      · simp only [pyGet_pySet_ne acc k1 k (pySet ((pyGet acc k1).getD []) name v1) hk1k]
        cases hgt : pyGet tl k <;> simp [hk1k, hgt]

/-- Reading one key of the merged dictionary: the first occurrence of the
key in the collected dictionary is post-processed in place. -/
theorem post_process_pyGet (method : String)
    (built : List (String × List (AttrValue × AttrValue))) :
    ∀ (out : List (String × AttrValue)) (k : String) (inner : List (AttrValue × AttrValue)),
      post_process method built = .ok out → pyGet built k = some inner →
      ∃ v, combine_entry method inner = .ok v ∧ pyGet out k = some v := by
  induction built with
  | nil => intro out k inner _ hk; simp at hk
  | cons hd tl ih =>
    intro out k inner hpp hk
    obtain ⟨k1, inner1⟩ := hd
    cases hce : combine_entry method inner1 with
    | error e => simp [post_process, hce] at hpp
    | ok v1 =>
      cases hpt : post_process method tl with
      | error e => simp [post_process, hce, hpt] at hpp
      | ok tail =>
        simp [post_process, hce, hpt] at hpp
        subst hpp
        by_cases hk1 : k1 = k
        · subst hk1
          simp at hk
          refine ⟨v1, ?_, by simp⟩
          rw [← hk]
          exact hce
        · simp [hk1] at hk
          obtain ⟨v, hv1, hv2⟩ := ih tail k inner hpt hk
          exact ⟨v, hv1, by simp [hk1, hv2]⟩

/-- The post-processing of one entry cannot raise for the two method names
the combinators pass. -/
theorem combine_entry_ok (method : String) (inner : List (AttrValue × AttrValue))
    (h : method = "intersection" ∨ method = "union") :
    ∃ v, combine_entry method inner = .ok v := by
  rcases h with h | h <;> subst h <;> unfold combine_entry <;> dsimp only <;> split
  · exact ⟨_, rfl⟩
  · exact ⟨_, by rw [if_pos rfl]⟩
  · exact ⟨_, rfl⟩
  · exact ⟨_, by rw [if_neg (by decide), if_pos rfl]⟩

theorem post_process_ok (method : String)
    (built : List (String × List (AttrValue × AttrValue)))
    (h : method = "intersection" ∨ method = "union") :
    ∃ out, post_process method built = .ok out := by
  induction built with
  | nil => exact ⟨[], rfl⟩
  | cons hd tl ih =>
    obtain ⟨k1, inner1⟩ := hd
    obtain ⟨v1, hv1⟩ := combine_entry_ok method inner1 h
    obtain ⟨tail, htail⟩ := ih
    exact ⟨(k1, v1) :: tail, by simp [post_process, hv1, htail]⟩

/-- An attribute two masks agree on is kept verbatim by the entry
post-processing, for any method and also when the two mask names coincide. -/
theorem combine_entry_agree (method : String) (n1 n2 v : AttrValue) :
    combine_entry method (pySet [(n1, v)] n2 v) = .ok v := by
  by_cases hn : n1 = n2 <;> simp [pySet, hn, combine_entry]

/-- Two differing contributions under distinct mask names produce the exact
`"intersection of:\n<name>: <value>,\n..."` string. -/
theorem combine_entry_differ_i (n1 n2 v1 v2 : AttrValue) (hn : n1 ≠ n2)
    (hv : v2 ≠ v1) :
    combine_entry "intersection" (pySet [(n1, v1)] n2 v2) =
      .ok (.str ("intersection of:\n" ++ attr_text n1 ++ ": " ++ attr_text v1 ++
        ",\n" ++ attr_text n2 ++ ": " ++ attr_text v2)) := by
  simp [pySet, hn, combine_entry, hv, String.append_assoc]

/-- The `union` twin of `combine_entry_differ_i`. -/
theorem combine_entry_differ_u (n1 n2 v1 v2 : AttrValue) (hn : n1 ≠ n2)
    (hv : v2 ≠ v1) :
    combine_entry "union" (pySet [(n1, v1)] n2 v2) =
      .ok (.str ("union of:\n" ++ attr_text n1 ++ ": " ++ attr_text v1 ++
        ",\n" ++ attr_text n2 ++ ": " ++ attr_text v2)) := by
  simp [pySet, hn, combine_entry, hv, String.append_assoc]

/-- C4 (amended): for every two masks — arbitrary attribute dictionaries
with unique keys, as Python builds them — whose `mask_name` attributes are
the *distinct* strings `nameA ≠ nameB` and whose `mask_description`
attributes are the differing strings `d1 ≠ d2`, both combinations succeed,
the combined `mask_description` equals exactly `"intersection
of:\n<nameA>: d1,\n<nameB>: d2"` (resp. `"union of:..."`), and every
attribute key other than `mask_name` on which the two masks agree keeps the
agreed value verbatim; when the names coincide the merge keys collide
instead (see the counterexample). -/
theorem combine_description_exact (A B : Mask) (nameA nameB d1 d2 : String)
    (hA : (A.attrs.map Prod.fst).Nodup) (hB : (B.attrs.map Prod.fst).Nodup)
    (hnA : pyGet A.attrs "mask_name" = some (.str nameA))
    (hnB : pyGet B.attrs "mask_name" = some (.str nameB))
    (hdA : pyGet A.attrs "mask_description" = some (.str d1))
    (hdB : pyGet B.attrs "mask_description" = some (.str d2))
    (hname : nameA ≠ nameB) (hdesc : d1 ≠ d2) :
    (∃ rp, intersection_of_masks [A, B] = .ok rp) ∧
    (∃ rp, union_of_masks [A, B] = .ok rp) ∧
    (∀ r post, intersection_of_masks [A, B] = .ok (r, post) →
      pyGet r.attrs "mask_description" =
        some (.str ("intersection of:\n" ++ nameA ++ ": " ++ d1 ++ ",\n" ++
          nameB ++ ": " ++ d2))) ∧
    (∀ r post, union_of_masks [A, B] = .ok (r, post) →
      pyGet r.attrs "mask_description" =
        some (.str ("union of:\n" ++ nameA ++ ": " ++ d1 ++ ",\n" ++
          nameB ++ ": " ++ d2))) ∧
    (∀ (k : String) (v : AttrValue), k ≠ "mask_name" →
      pyGet A.attrs k = some v → pyGet B.attrs k = some v →
      (∀ r post, intersection_of_masks [A, B] = .ok (r, post) →
        pyGet r.attrs k = some v) ∧
      (∀ r post, union_of_masks [A, B] = .ok (r, post) →
        pyGet r.attrs k = some v)) := by
  have hmA : mask_name_of A = .str nameA := by simp [mask_name_of, hnA]
  have hmB : mask_name_of B = .str nameB := by simp [mask_name_of, hnB]
  have hcolk : ∀ (k : String), k ≠ "mask_name" → ∀ vA vB,
      pyGet A.attrs k = some vA → pyGet B.attrs k = some vB →
      pyGet (collect_attrs [A, B]) k =
        some (pySet [(AttrValue.str nameA, vA)] (.str nameB) vB) := by
    intro k hk vA vB hvA hvB
    unfold collect_attrs
    rw [List.foldl_cons, List.foldl_cons, List.foldl_nil]
    unfold collect_mask_attrs
    rw [collect_fold_pyGet (mask_name_of B) B.attrs _ k hB hk, hvB]
    dsimp only
    rw [collect_fold_pyGet (mask_name_of A) A.attrs [] k hA hk, hvA]
    dsimp only
    rw [hmA, hmB]
    rfl
  have hiok : ∃ attrs, _combine_attributes_masks [A, B] "intersection" = .ok attrs := by
    obtain ⟨out, hout⟩ := post_process_ok "intersection" (collect_attrs [A, B]) (Or.inl rfl)
    exact ⟨out, hout⟩
  have huok : ∃ attrs, _combine_attributes_masks [A, B] "union" = .ok attrs := by
    obtain ⟨out, hout⟩ := post_process_ok "union" (collect_attrs [A, B]) (Or.inr rfl)
    exact ⟨out, hout⟩
  have hinv_i : ∀ r post, intersection_of_masks [A, B] = .ok (r, post) →
      ∃ attrs, _combine_attributes_masks [A, B] "intersection" = .ok attrs ∧
        r.attrs = attrs := by
    intro r post h
    simp only [intersection_of_masks] at h
    cases hc : _combine_attributes_masks [A, B] "intersection" with
    | error e => rw [hc] at h; simp at h
    | ok attrs =>
      rw [hc] at h
      simp at h
      exact ⟨attrs, rfl, by rw [← h.1]⟩
  have hinv_u : ∀ r post, union_of_masks [A, B] = .ok (r, post) →
      ∃ attrs, _combine_attributes_masks [A, B] "union" = .ok attrs ∧
        r.attrs = attrs := by
    intro r post h
    simp only [union_of_masks] at h
    cases hc : _combine_attributes_masks [A, B] "union" with
    | error e => rw [hc] at h; simp at h
    | ok attrs =>
      rw [hc] at h
      simp at h
      exact ⟨attrs, rfl, by rw [← h.1]⟩
  have hnAB : (AttrValue.str nameA) ≠ .str nameB := by
    intro he
    injection he with he2
    exact hname he2
  have hd21 : (AttrValue.str d2) ≠ .str d1 := by
    intro he
    injection he with he2
    exact hdesc he2.symm
  refine ⟨?_, ?_, ?_, ?_, ?_⟩
  · obtain ⟨attrs, hattrs⟩ := hiok
    refine ⟨({ data := and_data A.data B.data, attrs := attrs }, [A, B]), ?_⟩
    simp [intersection_of_masks, hattrs, and_data]
  · obtain ⟨attrs, hattrs⟩ := huok
    refine ⟨({ data := or_data A.data B.data, attrs := attrs }, [A, B]), ?_⟩
    simp [union_of_masks, hattrs, or_data]
  · intro r post h
    obtain ⟨attrs, hattrs, hr⟩ := hinv_i r post h
    obtain ⟨v, hce, hout⟩ := post_process_pyGet "intersection" (collect_attrs [A, B])
      attrs "mask_description" _ hattrs (hcolk "mask_description" (by decide) _ _ hdA hdB)
    rw [combine_entry_differ_i (.str nameA) (.str nameB) (.str d1) (.str d2) hnAB hd21] at hce
    injection hce with hce2
    rw [hr, hout, ← hce2]
    simp [attr_text]
  · intro r post h
    obtain ⟨attrs, hattrs, hr⟩ := hinv_u r post h
    obtain ⟨v, hce, hout⟩ := post_process_pyGet "union" (collect_attrs [A, B])
      attrs "mask_description" _ hattrs (hcolk "mask_description" (by decide) _ _ hdA hdB)
    rw [combine_entry_differ_u (.str nameA) (.str nameB) (.str d1) (.str d2) hnAB hd21] at hce
    injection hce with hce2
    rw [hr, hout, ← hce2]
    simp [attr_text]
  · intro k v hk hvA hvB
    constructor
    · intro r post h
      obtain ⟨attrs, hattrs, hr⟩ := hinv_i r post h
      obtain ⟨w, hce, hout⟩ := post_process_pyGet "intersection" (collect_attrs [A, B])
        attrs k _ hattrs (hcolk k hk _ _ hvA hvB)
      rw [combine_entry_agree "intersection" (.str nameA) (.str nameB) v] at hce
      injection hce with hce2
      rw [hr, hout, ← hce2]
    · intro r post h
      obtain ⟨attrs, hattrs, hr⟩ := hinv_u r post h
      obtain ⟨w, hce, hout⟩ := post_process_pyGet "union" (collect_attrs [A, B])
        attrs k _ hattrs (hcolk k hk _ _ hvA hvB)
      rw [combine_entry_agree "union" (.str nameA) (.str nameB) v] at hce
      injection hce with hce2
      rw [hr, hout, ← hce2]

/-- The first input mask of the C4 witness: it carries an extra
`fraction_threshold` attribute beyond the three provenance strings. -/
def mask_c4_a : Mask :=
  { data := [true]
    attrs := [("mask_name", .str "A"), ("fraction_threshold", .num 1),
              ("mask_type", .str "x"), ("mask_description", .str "d1")] }

/-- The second input mask of the C4 witness (same `fraction_threshold`,
differing description). -/
def mask_c4_b : Mask :=
  { data := [true]
    attrs := [("mask_name", .str "B"), ("fraction_threshold", .num 1),
              ("mask_type", .str "x"), ("mask_description", .str "d2")] }

/-- The mask `intersection_of_masks` builds from the two C4 witness inputs. -/
def mask_c4_combined : Mask :=
  { data := [true]
    attrs := [("fraction_threshold", .num 1), ("mask_type", .str "x"),
              ("mask_description", .str "intersection of:\nA: d1,\nB: d2")] }

/-- Witness for C4 (amended) at concrete masks with distinct names,
differing descriptions and an agreed extra `fraction_threshold` attribute
that the merge keeps verbatim. -/
theorem combine_description_exact_witness :
    pyGet mask_c4_combined.attrs "mask_description" =
      some (.str ("intersection of:\n" ++ "A" ++ ": " ++ "d1" ++ ",\n" ++
        "B" ++ ": " ++ "d2")) ∧
    pyGet mask_c4_combined.attrs "fraction_threshold" = some (.num 1) := by
  have hok : intersection_of_masks [mask_c4_a, mask_c4_b] =
      .ok (mask_c4_combined, [mask_c4_a, mask_c4_b]) := by
    with_unfolding_all decide
  have hthm := combine_description_exact mask_c4_a mask_c4_b "A" "B" "d1" "d2"
    (by decide) (by decide) rfl rfl rfl rfl (by decide) (by decide)
  exact ⟨hthm.2.2.1 mask_c4_combined [mask_c4_a, mask_c4_b] hok,
    (hthm.2.2.2.2 "fraction_threshold" (.num 1) (by decide) rfl rfl).1
      mask_c4_combined [mask_c4_a, mask_c4_b] hok⟩

/-- C4 (counterexample): when the two masks carry the *same* `mask_name`,
the merge dictionary keys their contributions identically, the second
description overwrites the first, and the combined `mask_description` is
`"d2"` rather than the claimed `"intersection of:\nM: d1,\nM: d2"`. -/
theorem combine_description_equal_names_counterexample :
    intersection_of_masks
        [{ data := [true], attrs := [("mask_name", .str "M"), ("mask_type", .str "t"), ("mask_description", .str "d1")] },
         { data := [true], attrs := [("mask_name", .str "M"), ("mask_type", .str "t"), ("mask_description", .str "d2")] }] =
      .ok ({ data := [true],
             attrs := [("mask_type", .str "t"), ("mask_description", AttrValue.str "d2")] },
           [{ data := [true], attrs := [("mask_name", .str "M"), ("mask_type", .str "t"), ("mask_description", .str "d1")] },
            { data := [true], attrs := [("mask_name", .str "M"), ("mask_type", .str "t"), ("mask_description", .str "d2")] }]) ∧
    AttrValue.str "d2" ≠ .str ("intersection of:\nM: d1,\nM: d2") := by
  exact ⟨by with_unfolding_all decide, by decide⟩

/-! ## Coordinate masks and the mask registry (atm_masks.py) -/

/-- A value of the caller-supplied request list (`create_masks` type-checks
`isinstance(mask, str)`, so non-strings must be representable). -/
inductive PyVal where
  | str (s : String)
  | int (n : ℤ)
  deriving DecidableEq, Repr

/-- Python `str()` of a request-list value, as interpolated into messages. -/
def PyVal.text : PyVal → String
  | .str s => s
  | .int n => toString n

/-- The labelled dataset: named coordinate arrays (`ds["lat"]`, ...). -/
structure Dataset where
  coords : List (String × List ℚ)
  deriving DecidableEq, Repr

/-- Python `ds[dim]`: a missing dimension raises a `KeyError`. -/
def Dataset.get (ds : Dataset) (dim : String) : Except PyErr (List ℚ) :=
  match pyGet ds.coords dim with
  | some a => .ok a
  | none => .error (.keyError dim)

/-- The `values` argument of `_create_coord_mask`: a numpy array / list of
coordinate values, or a `(min, max)` tuple (so the source's `isinstance`
`TypeError` branch is unreachable here). -/
inductive CoordValues where
  | arr (vals : List ℚ)
  | pair (mn mx : ℚ)
  deriving DecidableEq, Repr

/-- Python `repr` of the `values` argument as interpolated into the
`mask_description` f-string. -/
def render_coord_values : CoordValues → String
  | .arr l => "[" ++ String.intercalate ", " (l.map toString) ++ "]"
  | .pair mn mx => "(" ++ toString mn ++ ", " ++ toString mx ++ ")"

/-- Python `repr` of a `(min, max)` tuple. -/
def render_pair (p : ℚ × ℚ) : String :=
  "(" ++ toString p.1 ++ ", " ++ toString p.2 ++ ")"

/-- Python `repr` of a list of floats. -/
def render_list (l : List ℚ) : String :=
  "[" ++ String.intercalate ", " (l.map toString) ++ "]"

/-- The provenance attributes set by `_create_coord_mask`. -/
def coord_mask_attrs (values : CoordValues) (dim coord_name mask_name range_mode : String) :
    List (String × AttrValue) :=
  [("mask_name", .str mask_name),
   ("mask_type", .str (coord_name ++ "_mask")),
   ("mask_description", .str
     ("Mask for " ++ coord_name ++ " values " ++ render_coord_values values ++
       " along dimension '" ++ dim ++ "' with range mode '" ++ range_mode ++ "'."))]

/-- Embedding of `mask_utils._create_coord_mask`: validate explicit values
against `valid_range` (tuples are exempt), resolve a tuple via
`_range_mode`, then mask by set membership (`data[dim].isin(...)`). -/
def _create_coord_mask (data : Dataset) (values : CoordValues) (dim : String)
    (valid_range : ℚ × ℚ) (range_mode : String) (coord_name : String)
    (mask_name : String) : Except PyErr Mask :=
  match values with
  | .arr vals =>
    let bad := vals.filter (fun v =>
      decide (v < valid_range.1) || decide (v > valid_range.2))
    if bad.isEmpty then do
      let dim_array ← data.get dim
      .ok { data := dim_array.map (fun v => decide (v ∈ vals))
            attrs := coord_mask_attrs values dim coord_name mask_name range_mode }
    else
      .error (.valueError ("All " ++ coord_name ++ " values must be within " ++
        render_pair valid_range ++ ". Found invalid values: " ++ render_list bad))
  | .pair mn mx => do
    let dim_array ← data.get dim
    let values_to_mask ← _range_mode (mn, mx) dim_array valid_range range_mode
    .ok { data := dim_array.map (fun v => decide (v ∈ values_to_mask))
          attrs := coord_mask_attrs values dim coord_name mask_name range_mode }

/-- Embedding of `atm_masks.create_latitude_mask` (a `_create_coord_mask`
wrapper with `coord_name = "lat"`). -/
def create_latitude_mask (data : Dataset) (latitudes : CoordValues)
    (mask_name dim : String) (valid_range : ℚ × ℚ) (range_mode : String) :
    Except PyErr Mask :=
  _create_coord_mask data latitudes dim valid_range range_mode "lat" mask_name

/-- Python `list.index` (used on the region catalogue's abbreviation list). -/
def py_index (l : List String) (x : String) : Option ℕ :=
  match l with
  | [] => none
  | y :: rest =>
    if y = x then some 0
    else (py_index rest x).map (· + 1)

/-- Embedding of `atm_masks.create_ar6_region_mask`.  The external
`regionmask` catalogue is a parameter: `abbrevs` its abbreviation list and
`region_field` its per-cell region-index array over a grid (`none` marks a
cell outside every region, numpy `NaN`); `mask.where(mask == index)
.notnull()` keeps exactly the cells carrying the region's index. -/
def create_ar6_region_mask (abbrevs : List String)
    (region_field : Dataset → List (Option ℤ)) (data : Dataset)
    (region_abbrev : String) : Except PyErr Mask :=
  match py_index abbrevs region_abbrev with
  | none => .error (.valueError ("'" ++ region_abbrev ++ "' is not in list"))
  | some i =>
    .ok { data := (region_field data).map (fun c => decide (c = some (i : ℤ)))
          attrs := [("mask_name", .str ("AR6_" ++ region_abbrev ++ "_mask")),
                    ("mask_type", .str "region_mask"),
                    ("mask_description", .str
                      ("A mask indicating the presence of the AR6 region '" ++
                        region_abbrev ++ "'."))] }

/-- The module-level preset list before the region abbreviations are
appended (atm_masks.py lines 343-354). -/
def preset_masks : List String :=
  ["global", "NH_polar", "NH_midlat", "NH_tropics", "tropics",
   "SH_polar", "SH_midlat", "SH_tropics", "land", "ocean"]

/-- `implemented_masks = presets + ar6_regions` (the `extend` call). -/
def implemented_masks (abbrevs : List String) : List String :=
  preset_masks ++ abbrevs

/-- The `mask_latbnds_mapping` dictionary. -/
def mask_latbnds_mapping : List (String × (ℚ × ℚ)) :=
  [("NH_polar", (60, 90)), ("NH_midlat", (30, 60)), ("NH_tropics", (0, 30)),
   ("tropics", (-30, 30)), ("SH_polar", (-90, -60)), ("SH_midlat", (-60, -30)),
   ("SH_tropics", (-30, 0))]

/-- Embedding of `atm_masks._create_an_implemented_mask`: the atomic
dispatch.  `land`/`ocean` require one of the fraction fields and pass a
0.8 threshold; the keyword-argument call order of the source is preserved
(`create_sea_mask` receives `sea_frac_data := oceanfrac_mask`). -/
def _create_an_implemented_mask (abbrevs : List String)
    (region_field : Dataset → List (Option ℤ)) (dataset : Dataset)
    (mask_name : String) (landfrac_mask oceanfrac_mask : Option FracField) :
    Except PyErr Mask :=
  if mask_name = "global" then do
    let lat ← dataset.get "lat"
    .ok { data := lat.map (fun _ => true)
          attrs := [("mask_name", .str "global_mask"),
                    ("mask_type", .str "global_mask"),
                    ("mask_description", .str "A global mask including all ds lats.")] }
  else
    match pyGet mask_latbnds_mapping mask_name with
    | some latbnds =>
      create_latitude_mask dataset (.pair latbnds.1 latbnds.2) mask_name
        "lat" (-90, 90) "exclusive"
    | none =>
      if mask_name = "land" then
        if landfrac_mask.isSome || oceanfrac_mask.isSome then
          create_land_mask (8/10) landfrac_mask oceanfrac_mask
        else
          .error (.valueError
            "to create the land mask provide either 'landfrac_mask' or 'oceanfrac_mask'")
      else if mask_name = "ocean" then
        if landfrac_mask.isSome || oceanfrac_mask.isSome then
          create_sea_mask (8/10) oceanfrac_mask landfrac_mask
        else
          .error (.valueError
            "to create the ocean mask provide either 'landfrac_mask' or 'oceanfrac_mask'")
      else if mask_name ∈ abbrevs then
        create_ar6_region_mask abbrevs region_field dataset mask_name
      else
        .error (.valueError ("Mask '" ++ mask_name ++ "' is not implemented. Use one of " ++
          String.intercalate ",\n" (implemented_masks abbrevs) ++ "."))

/-- Python `mask_string.split(operation)` for the registry's one-character
operators `"&"` and `"|"` (for a single-character separator Python's
substring split coincides with the character split of the underlying
character list). -/
def py_split (s sep : String) : List String :=
  match sep.data with
  | [c] => (s.data.splitOn c).map (fun l => String.mk l)
  | _ => [s]

/-- The registry's mutable state during the first `for mask in masks` loop:
the `created_masks` dictionary and the two compound queues. -/
structure CMState where
  created : List (String × Mask)
  and_masks : List String
  or_masks : List String
  deriving DecidableEq, Repr

/-- One iteration of the first loop of `create_masks` (atm_masks.py lines
494-522): type check, atomic build, or queueing, with the unknown-mask
`ValueError`. -/
def loop1_step (abbrevs : List String) (region_field : Dataset → List (Option ℤ))
    (dataset : Dataset) (landfrac_mask oceanfrac_mask : Option FracField)
    (st : CMState) (mask : PyVal) : Except PyErr CMState :=
  match mask with
  | .int n => .error (.typeError ("Mask '" ++ toString n ++ "' is not a string."))
  | .str m =>
    if m ∈ implemented_masks abbrevs then do
      let built ← _create_an_implemented_mask abbrevs region_field dataset m
        landfrac_mask oceanfrac_mask
      .ok { st with created := pySet st.created m built }
    else if m.data.contains '&' then
      .ok { st with and_masks := st.and_masks ++ [m] }
    else if m.data.contains '|' then
      .ok { st with or_masks := st.or_masks ++ [m] }
    else
      .error (.valueError ("Mask '" ++ m ++
        "' is not implemented and is not a combination mask."))

/-- The first loop folded over the request list. -/
def loop1 (abbrevs : List String) (region_field : Dataset → List (Option ℤ))
    (dataset : Dataset) (landfrac_mask oceanfrac_mask : Option FracField) :
    List PyVal → CMState → Except PyErr CMState
  | [], st => .ok st
  | mask :: rest, st => do
    let st2 ← loop1_step abbrevs region_field dataset landfrac_mask oceanfrac_mask st mask
    loop1 abbrevs region_field dataset landfrac_mask oceanfrac_mask rest st2

/-- The atom-building inner loop of a compound (atm_masks.py lines 530-543):
an atom already in `created_masks` is reused, an implemented atom is built
with *no* fraction-field arguments, anything else raises. -/
def build_atoms (abbrevs : List String) (region_field : Dataset → List (Option ℤ))
    (dataset : Dataset) (mask_string : String) :
    List String → List (String × Mask) → Except PyErr (List (String × Mask))
  | [], created => .ok created
  | atom :: rest, created =>
    if (pyGet created atom).isSome then
      build_atoms abbrevs region_field dataset mask_string rest created
    else if atom ∈ implemented_masks abbrevs then do
      let built ← _create_an_implemented_mask abbrevs region_field dataset atom none none
      build_atoms abbrevs region_field dataset mask_string rest (pySet created atom built)
    else
      .error (.valueError ("Mask '" ++ atom ++ "' in combination mask'" ++
        mask_string ++ "' is not implemented."))

/-- The `created_masks[m] for m in mask_tuple` list build (the `KeyError`
branch is unreachable after `build_atoms`). -/
def lookup_masks (created : List (String × Mask)) :
    List String → Except PyErr (List Mask)
  | [] => .ok []
  | atom :: rest => do
    let m ← match pyGet created atom with
      | some m => .ok m
      | none => .error (.keyError atom)
    let tail ← lookup_masks created rest
    .ok (m :: tail)

/-- The `except` branch's diagnostic (`mask_tuple_as_str` joined with `;`).
Python prints each offending mask's full `DataArray`; this model prints its
`repr`. -/
def combine_err_msg (mask_string : String) (err : PyErr)
    (mask_tuple : List String) (created : List (String × Mask)) : String :=
  "Error combining masks for '" ++ mask_string ++ "': " ++
    (match err with
     | .typeError msg => msg | .valueError msg => msg
     | .keyError msg => msg | .indexError msg => msg) ++
    " \nPlease ensure all masks are compatible for combination - mask elements: " ++
    String.intercalate ";" (mask_tuple.map (fun m => m ++ ": \n" ++
      (match pyGet created m with
       | some mm => reprStr mm
       | none => "")))

/-- Processing of one queued compound (atm_masks.py lines 524-565): split on
the operator, build missing atoms (no fraction fields), look the members up
and combine; a combination failure is re-raised as a `ValueError` carrying
the diagnostic.  (The source calls `intersection_of_masks` twice for `&`;
with two or more members the call mutates nothing, so the second call
returns the same mask and the duplication is unobservable.) -/
def process_compound (abbrevs : List String)
    (region_field : Dataset → List (Option ℤ)) (dataset : Dataset)
    (created0 : List (String × Mask)) (mask_string operation : String) :
    Except PyErr (List (String × Mask)) := do
  let mask_tuple := py_split mask_string operation
  let created ← build_atoms abbrevs region_field dataset mask_string mask_tuple created0
  if operation = "|" then
    let mask_list ← lookup_masks created mask_tuple
    match union_of_masks mask_list with
    | .ok (res, _) => .ok (pySet created mask_string res)
    | .error err =>
      .error (.valueError (combine_err_msg mask_string err mask_tuple created))
  else if operation = "&" then
    let mask_list ← lookup_masks created mask_tuple
    match intersection_of_masks mask_list with
    | .ok (res, _) => .ok (pySet created mask_string res)
    | .error err =>
      .error (.valueError (combine_err_msg mask_string err mask_tuple created))
  else
    .ok created

/-- The second loop of `create_masks`, over the AND queue then the OR queue. -/
def loop2 (abbrevs : List String) (region_field : Dataset → List (Option ℤ))
    (dataset : Dataset) :
    List (String × String) → List (String × Mask) →
    Except PyErr (List (String × Mask))
  | [], created => .ok created
  | (mask_string, operation) :: rest, created => do
    let created2 ← process_compound abbrevs region_field dataset created
      mask_string operation
    loop2 abbrevs region_field dataset rest created2

/-- Embedding of `atm_masks.create_masks`: the first loop over the request
list, then the queued compounds (`zip([*and_masks, *or_masks], ["&"]*… +
["|"]*…)`), returning the full `created_masks` dictionary. -/
def create_masks (abbrevs : List String)
    (region_field : Dataset → List (Option ℤ)) (dataset : Dataset)
    (masks : List PyVal) (landfrac_mask oceanfrac_mask : Option FracField) :
    Except PyErr (List (String × Mask)) := do
  let st ← loop1 abbrevs region_field dataset landfrac_mask oceanfrac_mask masks
    { created := [], and_masks := [], or_masks := [] }
  let pairs := st.and_masks.map (fun s => (s, "&")) ++ st.or_masks.map (fun s => (s, "|"))
  loop2 abbrevs region_field dataset pairs st.created

/-! ## Compound atoms ignore the fraction fields (claim C7) -/

/-- C7: an atom discovered only inside a compound is built by the atomic
dispatch with no fraction-field arguments, so `create_masks(ds,
["NH_polar&land"])` — with `land` not requested at top level — fails at the
`land` atom-build step with the missing-input error, for *every* choice of
`landfrac_mask`/`oceanfrac_mask` supplied to the call (also when one is
supplied). -/
theorem create_masks_compound_land_missing_input
    (abbrevs : List String) (region_field : Dataset → List (Option ℤ))
    (ds : Dataset) (lats : List ℚ) (lf ocf : Option FracField)
    (hnotin : "NH_polar&land" ∉ abbrevs)
    (hlat : pyGet ds.coords "lat" = some lats) :
    create_masks abbrevs region_field ds [.str "NH_polar&land"] lf ocf =
      .error (.valueError
        "to create the land mask provide either 'landfrac_mask' or 'oceanfrac_mask'") := by
  have h1 : ¬ ("NH_polar&land" ∈ implemented_masks abbrevs) := by
    simp [implemented_masks, preset_masks, hnotin]
  have h2 : "NH_polar" ∈ implemented_masks abbrevs := by
    simp [implemented_masks, preset_masks]
  have h3 : "land" ∈ implemented_masks abbrevs := by
    simp [implemented_masks, preset_masks]
  have hsplit : py_split "NH_polar&land" "&" = ["NH_polar", "land"] := by decide
  have hc : ("NH_polar&land".data.contains '&') = true := by decide
  simp [create_masks, loop1, loop1_step, loop2, process_compound, build_atoms,
    _create_an_implemented_mask, create_latitude_mask, _create_coord_mask, Dataset.get,
    _range_mode, range_modes, mask_latbnds_mapping, coord_mask_attrs,
    h1, h2, h3, hsplit, hlat, hc]

/-- Witness for C7 on a concrete dataset, with a land-fraction field
supplied to the call (and still not forwarded to the atom build). -/
theorem create_masks_compound_land_missing_input_witness :
    create_masks [] (fun _ => []) ⟨[("lat", [75])]⟩ [.str "NH_polar&land"]
        (some (.noTime [1])) none =
      .error (.valueError
        "to create the land mask provide either 'landfrac_mask' or 'oceanfrac_mask'") :=
  create_masks_compound_land_missing_input [] (fun _ => []) ⟨[("lat", [75])]⟩ [75]
    (some (.noTime [1])) none (by simp) rfl

/-! ## First-failure behaviour of the registry (claim C9) -/

/-- Whether one request-list entry passes the first loop of `create_masks`
(it is a string and either builds atomically or queues as a compound):
the loop's success at an entry does not depend on the accumulated state. -/
def loop1_step_ok (abbrevs : List String) (region_field : Dataset → List (Option ℤ))
    (dataset : Dataset) (landfrac_mask oceanfrac_mask : Option FracField)
    (r : PyVal) : Bool :=
  match r with
  | .int _ => false
  | .str m =>
    if m ∈ implemented_masks abbrevs then
      match _create_an_implemented_mask abbrevs region_field dataset m
        landfrac_mask oceanfrac_mask with
      | .ok _ => true
      | .error _ => false
    else m.data.contains '&' || m.data.contains '|'

theorem loop1_step_ok_iff (abbrevs : List String)
    (region_field : Dataset → List (Option ℤ)) (ds : Dataset)
    (lf ocf : Option FracField) (r : PyVal) (st : CMState) :
    loop1_step_ok abbrevs region_field ds lf ocf r = true ↔
      ∃ st2, loop1_step abbrevs region_field ds lf ocf st r = .ok st2 := by
  cases r with
  | int n => simp [loop1_step_ok, loop1_step]
  | str m =>
    by_cases hm : m ∈ implemented_masks abbrevs
    · cases hbuild : _create_an_implemented_mask abbrevs region_field ds m lf ocf with
      | ok b => simp [loop1_step_ok, loop1_step, hm, hbuild]
      | error e => simp [loop1_step_ok, loop1_step, hm, hbuild]
    · by_cases hc1 : '&' ∈ m.data <;> by_cases hc2 : '|' ∈ m.data <;>
        simp [loop1_step_ok, loop1_step, hm, hc1, hc2]

theorem loop1_append (abbrevs : List String)
    (region_field : Dataset → List (Option ℤ)) (ds : Dataset)
    (lf ocf : Option FracField) (l1 l2 : List PyVal) :
    ∀ st, loop1 abbrevs region_field ds lf ocf (l1 ++ l2) st =
      (loop1 abbrevs region_field ds lf ocf l1 st) >>=
        loop1 abbrevs region_field ds lf ocf l2 := by
  induction l1 with
  | nil => intro st; simp [loop1]
  | cons x l1 ih =>
    intro st
    cases hstep : loop1_step abbrevs region_field ds lf ocf st x <;>
      simp [loop1, hstep, ih]

theorem loop1_ok_of_all (abbrevs : List String)
    (region_field : Dataset → List (Option ℤ)) (ds : Dataset)
    (lf ocf : Option FracField) (pre : List PyVal)
    (h : ∀ r ∈ pre, loop1_step_ok abbrevs region_field ds lf ocf r = true) :
    ∀ st, ∃ st2, loop1 abbrevs region_field ds lf ocf pre st = .ok st2 := by
  induction pre with
  | nil => intro st; exact ⟨st, rfl⟩
  | cons x l ih =>
    intro st
    obtain ⟨st2, hstep⟩ := (loop1_step_ok_iff abbrevs region_field ds lf ocf x st).mp
      (h x (by simp))
    obtain ⟨st3, hrest⟩ := ih (fun r hr => h r (List.mem_cons_of_mem _ hr)) st2
    exact ⟨st3, by simp [loop1, hstep, hrest]⟩

theorem loop1_all_of_ok (abbrevs : List String)
    (region_field : Dataset → List (Option ℤ)) (ds : Dataset)
    (lf ocf : Option FracField) (l : List PyVal) :
    ∀ st st2, loop1 abbrevs region_field ds lf ocf l st = .ok st2 →
      ∀ r ∈ l, loop1_step_ok abbrevs region_field ds lf ocf r = true := by
  induction l with
  | nil => intro st st2 _ r hr; simp at hr
  | cons x l ih =>
    intro st st2 hok r hr
    cases hstep : loop1_step abbrevs region_field ds lf ocf st x with
    | error e => simp [loop1, hstep] at hok
    | ok st3 =>
      rcases List.mem_cons.mp hr with hx | hl
      · subst hx
        exact (loop1_step_ok_iff abbrevs region_field ds lf ocf r st).mpr ⟨st3, hstep⟩
      · simp only [loop1, hstep, except_bind_ok] at hok
        exact ih st3 st2 hok r hl

/-- C9: `create_masks` raises a `TypeError` at the first non-string entry
(every earlier entry passing the first loop), raises the unknown-mask
`ValueError` at the first string entry that is neither implemented nor
contains `&` or `|`, and a successful call certifies that every entry passed
(a failure aborts the whole call with an error, never a partial mapping). -/
theorem create_masks_first_failure (abbrevs : List String)
    (region_field : Dataset → List (Option ℤ)) (ds : Dataset)
    (lf ocf : Option FracField) :
    (∀ (pre : List PyVal) (n : ℤ) (rest : List PyVal),
      (∀ r ∈ pre, loop1_step_ok abbrevs region_field ds lf ocf r = true) →
      create_masks abbrevs region_field ds (pre ++ .int n :: rest) lf ocf =
        .error (.typeError ("Mask '" ++ toString n ++ "' is not a string."))) ∧
    (∀ (pre : List PyVal) (s : String) (rest : List PyVal),
      (∀ r ∈ pre, loop1_step_ok abbrevs region_field ds lf ocf r = true) →
      s ∉ implemented_masks abbrevs →
      s.data.contains '&' = false → s.data.contains '|' = false →
      create_masks abbrevs region_field ds (pre ++ .str s :: rest) lf ocf =
        .error (.valueError ("Mask '" ++ s ++
          "' is not implemented and is not a combination mask."))) ∧
    (∀ (reqs : List PyVal) (res : List (String × Mask)),
      create_masks abbrevs region_field ds reqs lf ocf = .ok res →
      ∀ r ∈ reqs, loop1_step_ok abbrevs region_field ds lf ocf r = true) := by
  refine ⟨?_, ?_, ?_⟩
  · intro pre n rest hpre
    obtain ⟨st2, hst2⟩ := loop1_ok_of_all abbrevs region_field ds lf ocf pre hpre
      { created := [], and_masks := [], or_masks := [] }
    simp [create_masks, loop1_append, hst2, loop1, loop1_step]
  · intro pre s rest hpre hs hc1 hc2
    have hc1m : ¬ ('&' ∈ s.data) := by simpa using hc1
    have hc2m : ¬ ('|' ∈ s.data) := by simpa using hc2
    obtain ⟨st2, hst2⟩ := loop1_ok_of_all abbrevs region_field ds lf ocf pre hpre
      { created := [], and_masks := [], or_masks := [] }
    simp [create_masks, loop1_append, hst2, loop1, loop1_step, hs, hc1m, hc2m]
  · intro reqs res hok r hr
    cases hloop : loop1 abbrevs region_field ds lf ocf reqs
        { created := [], and_masks := [], or_masks := [] } with
    | error e => simp [create_masks, hloop] at hok
    | ok st => exact loop1_all_of_ok abbrevs region_field ds lf ocf reqs _ st hloop r hr

/-- Witness for C9: the request `[123]` raises the `TypeError` and the
request `["bogus"]` raises the unknown-mask `ValueError`. -/
theorem create_masks_first_failure_witness :
    create_masks [] (fun _ => []) ⟨[("lat", [75])]⟩ [.int 123] none none =
      .error (.typeError ("Mask '" ++ toString (123 : ℤ) ++ "' is not a string.")) ∧
    create_masks [] (fun _ => []) ⟨[("lat", [75])]⟩ [.str "bogus"] none none =
      .error (.valueError ("Mask '" ++ "bogus" ++
        "' is not implemented and is not a combination mask.")) :=
  ⟨(create_masks_first_failure [] (fun _ => []) ⟨[("lat", [75])]⟩ none none).1 [] 123 []
      (by simp),
   (create_masks_first_failure [] (fun _ => []) ⟨[("lat", [75])]⟩ none none).2.1 [] "bogus" []
      (by simp) (by simp [implemented_masks, preset_masks]) (by decide) (by decide)⟩

/-! ## Provenance attributes through the registry (claim C5) -/

theorem pyGet_some_mem {κ α : Type} [DecidableEq κ] (l : List (κ × α)) (k : κ) (v : α)
    (h : pyGet l k = some v) : (k, v) ∈ l := by
  induction l with
  | nil => simp at h
  | cons hd tl ih =>
    obtain ⟨k2, v2⟩ := hd
    by_cases hk : k2 = k
    · subst hk; simp at h; simp [h]
    · simp [hk] at h
      exact List.mem_cons_of_mem _ (ih h)

theorem pySet_mem {κ α : Type} [DecidableEq κ] (l : List (κ × α)) (k : κ) (v : α)
    (kv : κ × α) (h : kv ∈ pySet l k v) : kv ∈ l ∨ kv = (k, v) := by
  induction l with
  | nil => simp at h; simp [h]
  | cons hd tl ih =>
    obtain ⟨k2, v2⟩ := hd
    by_cases hk : k2 = k
    · subst hk
      simp [pySet] at h
      rcases h with h | h
      · right; simp [h]
      · left; exact List.mem_cons_of_mem _ h
    · simp [pySet, hk] at h
      rcases h with h | h
      · left; simp [h]
      · rcases ih h with h2 | h2
        · left; exact List.mem_cons_of_mem _ h2
        · right; exact h2

theorem pyGet_pySet_isSome {κ α : Type} [DecidableEq κ] (l : List (κ × α)) (k2 k : κ)
    (v : α) (h : (pyGet l k).isSome = true) : (pyGet (pySet l k2 v) k).isSome = true := by
  induction l with
  | nil => simp at h
  | cons hd tl ih =>
    obtain ⟨k3, v3⟩ := hd
    by_cases hk3 : k3 = k
    · subst hk3
      by_cases hk2 : k3 = k2 <;> simp [hk2]
    · by_cases hk2 : k3 = k2
      · subst hk2
        simp [hk3] at h
        by_cases hkk : k3 = k <;> simp [hkk, h]
      · simp [hk3, hk2] at h ⊢
        exact ih h

theorem pyGet_isSome_congr {α β : Type} (l1 : List (String × α)) (l2 : List (String × β))
    (h : l1.map Prod.fst = l2.map Prod.fst) (k : String) :
    (pyGet l1 k).isSome = (pyGet l2 k).isSome := by
  induction l1 generalizing l2 with
  | nil =>
    cases l2 with
    | nil => rfl
    | cons hd tl => simp at h
  | cons hd tl ih =>
    cases l2 with
    | nil => simp at h
    | cons hd2 tl2 =>
      obtain ⟨k1, v1⟩ := hd
      obtain ⟨k2, v2⟩ := hd2
      simp at h
      obtain ⟨hk, ht⟩ := h
      subst hk
      by_cases hkk : k1 = k <;> simp [hkk, ih tl2 ht]

theorem post_process_map_fst (method : String)
    (built : List (String × List (AttrValue × AttrValue)))
    (out : List (String × AttrValue)) (h : post_process method built = .ok out) :
    out.map Prod.fst = built.map Prod.fst := by
  induction built generalizing out with
  | nil =>
    simp [post_process] at h
    simp [← h]
  | cons hd tl ih =>
    obtain ⟨k, inner⟩ := hd
    cases hce : combine_entry method inner with
    | error e => simp [post_process, hce] at h
    | ok v =>
      cases hpp : post_process method tl with
      | error e => simp [post_process, hce, hpp] at h
      | ok tail =>
        simp [post_process, hce, hpp] at h
        simp [← h, ih tail hpp]

theorem collect_step_mono (name : AttrValue)
    (acc : List (String × List (AttrValue × AttrValue))) (kv : String × AttrValue)
    (k : String) (h : (pyGet acc k).isSome = true) :
    (pyGet (collect_step name acc kv) k).isSome = true := by
  unfold collect_step insert_attr_contribution
  split
  · exact h
  · exact pyGet_pySet_isSome _ _ _ _ h

theorem foldl_collect_mono (name : AttrValue) (l : List (String × AttrValue)) :
    ∀ acc k, (pyGet acc k).isSome = true →
      (pyGet (l.foldl (collect_step name) acc) k).isSome = true := by
  induction l with
  | nil => intro acc k h; exact h
  | cons hd tl ih =>
    intro acc k h
    exact ih _ k (collect_step_mono name acc hd k h)

theorem foldl_collect_key (name : AttrValue) (l : List (String × AttrValue)) :
    ∀ acc k, k ≠ "mask_name" → (pyGet l k).isSome = true →
      (pyGet (l.foldl (collect_step name) acc) k).isSome = true := by
  induction l with
  | nil => intro acc k _ h; simp at h
  | cons hd tl ih =>
    intro acc k hk h
    obtain ⟨k1, v1⟩ := hd
    by_cases hk1 : k1 = k
    · subst hk1
      have hstep : (pyGet (collect_step name acc (k1, v1)) k1).isSome = true := by
        unfold collect_step insert_attr_contribution
        rw [if_neg (by simpa using hk)]
        simp [pyGet_pySet_self]
      exact foldl_collect_mono name tl _ k1 hstep
    · simp [hk1] at h
      exact ih _ k hk h

theorem collect_mask_attrs_mono (acc : List (String × List (AttrValue × AttrValue)))
    (m : Mask) (k : String) (h : (pyGet acc k).isSome = true) :
    (pyGet (collect_mask_attrs acc m) k).isSome = true :=
  foldl_collect_mono (mask_name_of m) m.attrs acc k h

theorem foldl_masks_mono (masks : List Mask) :
    ∀ acc k, (pyGet acc k).isSome = true →
      (pyGet (masks.foldl collect_mask_attrs acc) k).isSome = true := by
  induction masks with
  | nil => intro acc k h; exact h
  | cons m tl ih =>
    intro acc k h
    exact ih _ k (collect_mask_attrs_mono acc m k h)

theorem collect_attrs_key (masks : List Mask) (m : Mask) (k : String)
    (hm : m ∈ masks) (hk : k ≠ "mask_name")
    (hkey : (pyGet m.attrs k).isSome = true) :
    (pyGet (collect_attrs masks) k).isSome = true := by
  unfold collect_attrs
  suffices hgen : ∀ acc, (pyGet (masks.foldl collect_mask_attrs acc) k).isSome = true by
    exact hgen []
  induction masks with
  | nil => simp at hm
  | cons m0 tl ih =>
    intro acc
    rcases List.mem_cons.mp hm with hm0 | htl
    · subst hm0
      rw [List.foldl_cons]
      exact foldl_masks_mono tl _ k
        (foldl_collect_key (mask_name_of m) m.attrs acc k hk hkey)
    · rw [List.foldl_cons]
      exact ih htl _

theorem combine_attrs_key (masks : List Mask) (method : String)
    (attrs : List (String × AttrValue)) (m : Mask) (k : String)
    (hm : m ∈ masks) (hk : k ≠ "mask_name")
    (hkey : (pyGet m.attrs k).isSome = true)
    (h : _combine_attributes_masks masks method = .ok attrs) :
    (pyGet attrs k).isSome = true := by
  unfold _combine_attributes_masks at h
  rw [pyGet_isSome_congr attrs (collect_attrs masks) (post_process_map_fst method _ attrs h) k]
  exact collect_attrs_key masks m k hm hk hkey

def has_provenance (m : Mask) : Prop :=
  (pyGet m.attrs "mask_type").isSome = true ∧
  (pyGet m.attrs "mask_description").isSome = true

def has_full_provenance (m : Mask) : Prop :=
  (pyGet m.attrs "mask_name").isSome = true ∧ has_provenance m

theorem create_land_mask_ok_keys (t : ℚ) (lf sf : Option FracField) (m : Mask)
    (h : create_land_mask t lf sf = .ok m) : has_full_provenance m := by
  unfold create_land_mask at h
  rcases lf with _ | lfv
  · rcases sf with _ | sfv
    · simp at h
    · rcases sfv with vals | slices
      · simp at h
        subst h
        simp [has_full_provenance, has_provenance, pyGet]
      · rcases slices with _ | ⟨s, tl⟩
        · simp [isel_time0] at h
        · simp [isel_time0] at h
          subst h
          simp [has_full_provenance, has_provenance, pyGet]
  · rcases lfv with vals | slices
    · simp at h
      subst h
      simp [has_full_provenance, has_provenance, pyGet]
    · rcases slices with _ | ⟨s, tl⟩
      · simp [isel_time0] at h
      · simp [isel_time0] at h
        subst h
        simp [has_full_provenance, has_provenance, pyGet]

theorem create_sea_mask_ok_keys (t : ℚ) (sf lf : Option FracField) (m : Mask)
    (h : create_sea_mask t sf lf = .ok m) : has_full_provenance m := by
  unfold create_sea_mask at h
  rcases sf with _ | sfv
  · rcases lf with _ | lfv
    · simp at h
    · rcases lfv with vals | slices
      · simp at h
        subst h
        simp [has_full_provenance, has_provenance, pyGet]
      · rcases slices with _ | ⟨s, tl⟩
        · simp [squeeze_time] at h
        · rcases tl with _ | ⟨s2, tl2⟩
          · simp [squeeze_time] at h
            subst h
            simp [has_full_provenance, has_provenance, pyGet]
          · simp [squeeze_time] at h
  · rcases sfv with vals | slices
    · simp at h
      subst h
      simp [has_full_provenance, has_provenance, pyGet]
    · rcases slices with _ | ⟨s, tl⟩
      · simp [squeeze_time] at h
      · rcases tl with _ | ⟨s2, tl2⟩
        · simp [squeeze_time] at h
          subst h
          simp [has_full_provenance, has_provenance, pyGet]
        · simp [squeeze_time] at h

theorem create_coord_mask_ok_keys (data : Dataset) (values : CoordValues)
    (dim : String) (vr : ℚ × ℚ) (rm cn mn : String) (m : Mask)
    (h : _create_coord_mask data values dim vr rm cn mn = .ok m) :
    has_full_provenance m := by
  unfold _create_coord_mask at h
  split at h
  · dsimp only at h
    split at h
    · cases hg : data.get dim with
      | error e => rw [hg] at h; simp at h
      | ok arr =>
        rw [hg] at h
        simp at h
        subst h
        simp [has_full_provenance, has_provenance, coord_mask_attrs, pyGet]
    · simp at h
  · next a b =>
    cases hg : data.get dim with
    | error e => rw [hg] at h; simp at h
    | ok arr =>
      rw [hg] at h
      dsimp only [except_bind_ok] at h
      cases hr : _range_mode (a, b) arr vr rm with
      | error e => rw [hr] at h; simp at h
      | ok vtm =>
        rw [hr] at h
        simp at h
        subst h
        simp [has_full_provenance, has_provenance, coord_mask_attrs, pyGet]

theorem create_ar6_region_mask_ok_keys (abbrevs : List String)
    (region_field : Dataset → List (Option ℤ)) (data : Dataset)
    (region_abbrev : String) (m : Mask)
    (h : create_ar6_region_mask abbrevs region_field data region_abbrev = .ok m) :
    has_full_provenance m := by
  unfold create_ar6_region_mask at h
  cases hpi : py_index abbrevs region_abbrev with
  | none => rw [hpi] at h; simp at h
  | some i =>
    rw [hpi] at h
    simp at h
    subst h
    simp [has_full_provenance, has_provenance, pyGet]

theorem create_an_implemented_mask_ok_keys (abbrevs : List String)
    (region_field : Dataset → List (Option ℤ)) (ds : Dataset)
    (name : String) (lf ocf : Option FracField) (m : Mask)
    (h : _create_an_implemented_mask abbrevs region_field ds name lf ocf = .ok m) :
    has_full_provenance m := by
  unfold _create_an_implemented_mask at h
  split at h
  · cases hg : ds.get "lat" with
    | error e => rw [hg] at h; simp at h
    | ok lat =>
      rw [hg] at h
      simp at h
      subst h
      simp [has_full_provenance, has_provenance, pyGet]
  · split at h
    · exact create_coord_mask_ok_keys _ _ _ _ _ _ _ _ h
    · split at h
      · split at h
        · exact create_land_mask_ok_keys _ _ _ _ h
        · simp at h
      · split at h
        · split at h
          · exact create_sea_mask_ok_keys _ _ _ _ h
          · simp at h
        · split at h
          · exact create_ar6_region_mask_ok_keys _ _ _ _ _ h
          · simp at h

theorem intersection_result_provenance (masks : List Mask) (r : Mask)
    (post : List Mask) (h : intersection_of_masks masks = .ok (r, post))
    (hall : ∀ m ∈ masks, has_provenance m) : has_provenance r := by
  cases masks with
  | nil => simp [intersection_of_masks] at h
  | cons m0 rest =>
    simp only [intersection_of_masks] at h
    cases hc : _combine_attributes_masks (m0 :: rest) "intersection" with
    | error e => rw [hc] at h; simp at h
    | ok attrs =>
      rw [hc] at h
      dsimp only [except_bind_ok] at h
      have hr : r.attrs = attrs := by
        split at h <;> simp at h <;> rw [← h.1]
      obtain ⟨ht, hd⟩ := hall m0 (by simp)
      constructor
      · rw [hr]
        exact combine_attrs_key (m0 :: rest) "intersection" attrs m0 "mask_type"
          (by simp) (by decide) ht hc
      · rw [hr]
        exact combine_attrs_key (m0 :: rest) "intersection" attrs m0 "mask_description"
          (by simp) (by decide) hd hc

theorem union_result_provenance (masks : List Mask) (r : Mask)
    (post : List Mask) (h : union_of_masks masks = .ok (r, post))
    (hall : ∀ m ∈ masks, has_provenance m) : has_provenance r := by
  cases masks with
  | nil => simp [union_of_masks] at h
  | cons m0 rest =>
    simp only [union_of_masks] at h
    cases hc : _combine_attributes_masks (m0 :: rest) "union" with
    | error e => rw [hc] at h; simp at h
    | ok attrs =>
      rw [hc] at h
      dsimp only [except_bind_ok] at h
      have hr : r.attrs = attrs := by
        split at h <;> simp at h <;> rw [← h.1]
      obtain ⟨ht, hd⟩ := hall m0 (by simp)
      constructor
      · rw [hr]
        exact combine_attrs_key (m0 :: rest) "union" attrs m0 "mask_type"
          (by simp) (by decide) ht hc
      · rw [hr]
        exact combine_attrs_key (m0 :: rest) "union" attrs m0 "mask_description"
          (by simp) (by decide) hd hc

def mask_entry_ok (abbrevs : List String) (kv : String × Mask) : Prop :=
  has_provenance kv.2 ∧
    (kv.1 ∈ implemented_masks abbrevs → (pyGet kv.2.attrs "mask_name").isSome = true)

def created_ok (abbrevs : List String) (created : List (String × Mask)) : Prop :=
  ∀ kv ∈ created, mask_entry_ok abbrevs kv

theorem created_ok_pySet (abbrevs : List String) (created : List (String × Mask))
    (k : String) (v : Mask) (h : created_ok abbrevs created)
    (hv : mask_entry_ok abbrevs (k, v)) :
    created_ok abbrevs (pySet created k v) := by
  intro kv hkv
  rcases pySet_mem created k v kv hkv with h1 | h1
  · exact h kv h1
  · rw [h1]; exact hv

theorem lookup_masks_all (created : List (String × Mask)) :
    ∀ (atoms : List String) (l : List Mask),
      lookup_masks created atoms = .ok l →
      ∀ m ∈ l, ∃ k, (k, m) ∈ created := by
  intro atoms
  induction atoms with
  | nil =>
    intro l h m hm
    simp [lookup_masks] at h
    subst h
    simp at hm
  | cons atom rest ih =>
    intro l h m hm
    cases hg : pyGet created atom with
    | none => simp [lookup_masks, hg] at h
    | some m0 =>
      cases hlk : lookup_masks created rest with
      | error e => simp [lookup_masks, hg, hlk] at h
      | ok tail =>
        simp [lookup_masks, hg, hlk] at h
        rw [← h] at hm
        rcases List.mem_cons.mp hm with h1 | h1
        · exact ⟨atom, h1 ▸ pyGet_some_mem created atom m0 hg⟩
        · exact ih tail hlk m h1

def queues_ok (abbrevs : List String) (st : CMState) : Prop :=
  (∀ s ∈ st.and_masks, s ∉ implemented_masks abbrevs) ∧
  (∀ s ∈ st.or_masks, s ∉ implemented_masks abbrevs)

theorem loop1_step_inv (abbrevs : List String)
    (region_field : Dataset → List (Option ℤ)) (ds : Dataset)
    (lf ocf : Option FracField) (st st2 : CMState) (r : PyVal)
    (h : loop1_step abbrevs region_field ds lf ocf st r = .ok st2)
    (hc : created_ok abbrevs st.created) (hq : queues_ok abbrevs st) :
    created_ok abbrevs st2.created ∧ queues_ok abbrevs st2 := by
  cases r with
  | int n => simp [loop1_step] at h
  | str m =>
    unfold loop1_step at h
    dsimp only at h
    by_cases hm : m ∈ implemented_masks abbrevs
    · rw [if_pos hm] at h
      cases hb : _create_an_implemented_mask abbrevs region_field ds m lf ocf with
      | error e => rw [hb] at h; simp at h
      | ok b =>
        rw [hb] at h
        simp at h
        subst h
        refine ⟨?_, hq⟩
        refine created_ok_pySet abbrevs st.created m b hc ?_
        obtain ⟨hn, hp⟩ := create_an_implemented_mask_ok_keys abbrevs region_field ds m lf ocf b hb
        exact ⟨hp, fun _ => hn⟩
    · rw [if_neg hm] at h
      split at h
      · simp at h
        subst h
        refine ⟨hc, ⟨?_, hq.2⟩⟩
        intro s hs
        rcases List.mem_append.mp hs with h1 | h1
        · exact hq.1 s h1
        · simp at h1; rw [h1]; exact hm
      · split at h
        · simp at h
          subst h
          refine ⟨hc, ⟨hq.1, ?_⟩⟩
          intro s hs
          rcases List.mem_append.mp hs with h1 | h1
          · exact hq.2 s h1
          · simp at h1; rw [h1]; exact hm
        · simp at h

theorem loop1_inv (abbrevs : List String)
    (region_field : Dataset → List (Option ℤ)) (ds : Dataset)
    (lf ocf : Option FracField) (l : List PyVal) :
    ∀ st st2, loop1 abbrevs region_field ds lf ocf l st = .ok st2 →
      created_ok abbrevs st.created → queues_ok abbrevs st →
      created_ok abbrevs st2.created ∧ queues_ok abbrevs st2 := by
  induction l with
  | nil =>
    intro st st2 h hc hq
    simp [loop1] at h
    subst h
    exact ⟨hc, hq⟩
  | cons x rest ih =>
    intro st st2 h hc hq
    cases hstep : loop1_step abbrevs region_field ds lf ocf st x with
    | error e => simp [loop1, hstep] at h
    | ok st3 =>
      simp only [loop1, hstep, except_bind_ok] at h
      obtain ⟨hc3, hq3⟩ := loop1_step_inv abbrevs region_field ds lf ocf st st3 x hstep hc hq
      exact ih st3 st2 h hc3 hq3

theorem build_atoms_inv (abbrevs : List String)
    (region_field : Dataset → List (Option ℤ)) (ds : Dataset)
    (mask_string : String) :
    ∀ (atoms : List String) (created created2 : List (String × Mask)),
      build_atoms abbrevs region_field ds mask_string atoms created = .ok created2 →
      created_ok abbrevs created → created_ok abbrevs created2 := by
  intro atoms
  induction atoms with
  | nil =>
    intro created created2 h hc
    simp [build_atoms] at h
    subst h
    exact hc
  | cons atom rest ih =>
    intro created created2 h hc
    unfold build_atoms at h
    split at h
    · exact ih created created2 h hc
    · split at h
      · cases hb : _create_an_implemented_mask abbrevs region_field ds atom none none with
        | error e => rw [hb] at h; simp at h
        | ok b =>
          rw [hb] at h
          dsimp only [except_bind_ok] at h
          refine ih _ created2 h ?_
          refine created_ok_pySet abbrevs created atom b hc ?_
          obtain ⟨hn, hp⟩ := create_an_implemented_mask_ok_keys abbrevs region_field ds atom
            none none b hb
          exact ⟨hp, fun _ => hn⟩
      · simp at h

theorem process_compound_inv (abbrevs : List String)
    (region_field : Dataset → List (Option ℤ)) (ds : Dataset)
    (created created2 : List (String × Mask)) (ms op : String)
    (h : process_compound abbrevs region_field ds created ms op = .ok created2)
    (hc : created_ok abbrevs created) (hms : ms ∉ implemented_masks abbrevs) :
    created_ok abbrevs created2 := by
  unfold process_compound at h
  dsimp only at h
  cases hba : build_atoms abbrevs region_field ds ms (py_split ms op) created with
  | error e => rw [hba] at h; simp at h
  | ok cr2 =>
    rw [hba] at h
    dsimp only [except_bind_ok] at h
    have hc2 : created_ok abbrevs cr2 :=
      build_atoms_inv abbrevs region_field ds ms (py_split ms op) created cr2 hba hc
    have hprov : ∀ (ml : List Mask), lookup_masks cr2 (py_split ms op) = .ok ml →
        ∀ m ∈ ml, has_provenance m := by
      intro ml hlk m hm
      obtain ⟨k, hk⟩ := lookup_masks_all cr2 (py_split ms op) ml hlk m hm
      exact (hc2 (k, m) hk).1
    split at h
    · cases hlk : lookup_masks cr2 (py_split ms op) with
      | error e => rw [hlk] at h; simp at h
      | ok ml =>
        rw [hlk] at h
        dsimp only [except_bind_ok] at h
        cases hcomb : union_of_masks ml with
        | error e => rw [hcomb] at h; simp at h
        | ok pr =>
          rw [hcomb] at h
          simp at h
          subst h
          refine created_ok_pySet abbrevs cr2 ms pr.1 hc2 ?_
          refine ⟨?_, fun hmem => absurd hmem hms⟩
          exact union_result_provenance ml pr.1 pr.2 (by rw [hcomb]) (hprov ml hlk)
    · split at h
      · cases hlk : lookup_masks cr2 (py_split ms op) with
        | error e => rw [hlk] at h; simp at h
        | ok ml =>
          rw [hlk] at h
          dsimp only [except_bind_ok] at h
          cases hcomb : intersection_of_masks ml with
          | error e => rw [hcomb] at h; simp at h
          | ok pr =>
            rw [hcomb] at h
            simp at h
            subst h
            refine created_ok_pySet abbrevs cr2 ms pr.1 hc2 ?_
            refine ⟨?_, fun hmem => absurd hmem hms⟩
            exact intersection_result_provenance ml pr.1 pr.2 (by rw [hcomb]) (hprov ml hlk)
      · simp at h
        subst h
        exact hc2

theorem loop2_inv (abbrevs : List String)
    (region_field : Dataset → List (Option ℤ)) (ds : Dataset) :
    ∀ (pairs : List (String × String)) (created created2 : List (String × Mask)),
      loop2 abbrevs region_field ds pairs created = .ok created2 →
      created_ok abbrevs created →
      (∀ p ∈ pairs, p.1 ∉ implemented_masks abbrevs) →
      created_ok abbrevs created2 := by
  intro pairs
  induction pairs with
  | nil =>
    intro created created2 h hc _
    simp [loop2] at h
    subst h
    exact hc
  | cons p rest ih =>
    intro created created2 h hc hp
    obtain ⟨ms, op⟩ := p
    cases hpc : process_compound abbrevs region_field ds created ms op with
    | error e => simp [loop2, hpc] at h
    | ok cr2 =>
      simp only [loop2, hpc, except_bind_ok] at h
      have hc2 := process_compound_inv abbrevs region_field ds created cr2 ms op hpc hc
        (hp (ms, op) (by simp))
      exact ih cr2 created2 h hc2 (fun q hq => hp q (List.mem_cons_of_mem _ hq))

/-- C5 (amended): every mask returned by `create_masks` carries `mask_type`
and `mask_description`; masks stored under an implemented (atomic) name
additionally carry `mask_name`, while a combined mask does not (the
attribute merge of the Combinator skips `mask_name`, see the
counterexample). -/
theorem create_masks_provenance (abbrevs : List String)
    (region_field : Dataset → List (Option ℤ)) (ds : Dataset)
    (reqs : List PyVal) (lf ocf : Option FracField)
    (res : List (String × Mask))
    (h : create_masks abbrevs region_field ds reqs lf ocf = .ok res) :
    ∀ kv ∈ res, (pyGet kv.2.attrs "mask_type").isSome = true ∧
      (pyGet kv.2.attrs "mask_description").isSome = true ∧
      (kv.1 ∈ implemented_masks abbrevs →
        (pyGet kv.2.attrs "mask_name").isSome = true) := by
  unfold create_masks at h
  cases hl1 : loop1 abbrevs region_field ds lf ocf reqs
      { created := [], and_masks := [], or_masks := [] } with
  | error e => rw [hl1] at h; simp at h
  | ok st =>
    rw [hl1] at h
    dsimp only [except_bind_ok] at h
    obtain ⟨hc, hq⟩ := loop1_inv abbrevs region_field ds lf ocf reqs _ st hl1
      (fun kv hkv => absurd hkv (by simp)) (by constructor <;> simp)
    have hpairs : ∀ p ∈ (st.and_masks.map (fun s => (s, "&")) ++
        st.or_masks.map (fun s => (s, "|"))), p.1 ∉ implemented_masks abbrevs := by
      intro p hp
      rcases List.mem_append.mp hp with h1 | h1
      · obtain ⟨s, hs, hps⟩ := List.mem_map.mp h1
        rw [← hps]
        exact hq.1 s hs
      · obtain ⟨s, hs, hps⟩ := List.mem_map.mp h1
        rw [← hps]
        exact hq.2 s hs
    have hfin := loop2_inv abbrevs region_field ds _ st.created res h hc hpairs
    intro kv hkv
    obtain ⟨⟨ht, hd⟩, hn⟩ := hfin kv hkv
    exact ⟨ht, hd, hn⟩

/-- The concrete mask `create_masks(ds, ["global"])` builds (used by the
C5 witness and read back through the theorem). -/
def global_mask_one : Mask :=
  { data := [true]
    attrs := [("mask_name", AttrValue.str "global_mask"),
              ("mask_type", AttrValue.str "global_mask"),
              ("mask_description", AttrValue.str "A global mask including all ds lats.")] }

/-- Witness for C5 (amended): the provenance facts for the concrete result
of `create_masks(ds, ["global"])`. -/
theorem create_masks_provenance_witness :
    (pyGet global_mask_one.attrs "mask_type").isSome = true ∧
    (pyGet global_mask_one.attrs "mask_description").isSome = true ∧
    ("global" ∈ implemented_masks [] →
      (pyGet global_mask_one.attrs "mask_name").isSome = true) :=
  create_masks_provenance [] (fun _ => []) ⟨[("lat", [75])]⟩ [.str "global"] none none
    [("global", global_mask_one)] (by with_unfolding_all decide)
    ("global", global_mask_one) (by simp)

/-- C5 (counterexample): `create_masks(ds, ["NH_polar&SH_polar"])` succeeds,
yet the combined mask stored under the compound key carries *no* `mask_name`
attribute (while `mask_type` and `mask_description` are present), so the
claim that every returned mask carries all three provenance attributes is
false. -/
theorem create_masks_compound_lacks_mask_name :
    ((create_masks [] (fun _ => []) ⟨[("lat", [10, 70])]⟩
          [.str "NH_polar&SH_polar"] none none).toOption.bind
        (fun res => pyGet res "NH_polar&SH_polar")).map
      (fun m => pyGet m.attrs "mask_name") = some none ∧
    ((create_masks [] (fun _ => []) ⟨[("lat", [10, 70])]⟩
          [.str "NH_polar&SH_polar"] none none).toOption.bind
        (fun res => pyGet res "NH_polar&SH_polar")).map
      (fun m => ((pyGet m.attrs "mask_type").isSome,
                 (pyGet m.attrs "mask_description").isSome)) = some (true, true) :=
  ⟨by with_unfolding_all decide, by with_unfolding_all decide⟩

/-! ## Alignment-checked arithmetic (utils/xarray_operations_with_alignment.py) -/

/-- A gridded operand of the arithmetic helpers: a 1-D labelled array (its
coordinate index and its values). -/
structure XObj where
  coords : List ℚ
  data : List ℚ
  deriving DecidableEq, Repr

/-- `ALIGN_KWARGS_ERR_MSG` formatted with the default `join='exact'`. -/
def align_err_msg : String :=
  "\nInput xarray objects are not aligned according to\njoin='exact'.\n"

/-- Embedding of `check_alignment` under the default
`{"join": "exact", "copy": True}`: `xr.align` raises (and the function
returns `False`, here `none`) unless every operand's coordinate index is
identical; on success the (copied, value-identical) operands are returned. -/
def check_alignment (args : List XObj) : Option (List XObj) :=
  match args with
  | [] => some []
  | a :: rest =>
    if rest.all (fun b => decide (b.coords = a.coords)) then some (a :: rest)
    else none

/-- xarray `**` on rational cell values; only integer exponents stay inside
ℚ, so a fractional exponent (never exercised by the claims) is mapped to 0
rather than modelling real-valued powers. -/
def powQ (a b : ℚ) : ℚ :=
  if b.den = 1 then a ^ b.num else 0

/-- Embedding of `_operation_with_alignment` (default `align_kwargs`): check
alignment, raise the formatted `ValueError` on failure, pick the class's
dunder method by name (`ValueError` for an unknown name) and apply it to
the *whole* aligned tuple — the dunder methods are binary, so any operand
count other than two raises a `TypeError` at the call, and an empty tuple
already fails at `type(aligned[0])` with an `IndexError`. -/
def _operation_with_alignment (args : List XObj) (operation : String) :
    Except PyErr XObj :=
  match check_alignment args with
  | none => .error (.valueError align_err_msg)
  | some aligned =>
    match aligned with
    | [] => .error (.indexError "tuple index out of range")
    | a0 :: rest0 =>
      let op : Option (ℚ → ℚ → ℚ) :=
        if operation = "add" then some (fun x y => x + y)
        else if operation = "subtract" then some (fun x y => x - y)
        else if operation = "multiply" then some (fun x y => x * y)
        else if operation = "divide" then some (fun x y => x / y)
        else if operation = "power" then some powQ
        else none
      match op with
      | none => .error (.valueError ("Unsupported operation: " ++ operation))
      | some f =>
        match a0 :: rest0 with
        | [a, b] => .ok { coords := a.coords, data := List.zipWith f a.data b.data }
        | [_] => .error (.typeError "missing 1 required positional argument: 'other'")
        | l => .error (.typeError ("takes 2 positional arguments but " ++
            toString l.length ++ " were given"))

/-- Embedding of `add_with_alignment` (variadic in the source). -/
def add_with_alignment (args : List XObj) : Except PyErr XObj :=
  _operation_with_alignment args "add"

/-- Embedding of `subtract_with_alignment` (binary in the source). -/
def subtract_with_alignment (a b : XObj) : Except PyErr XObj :=
  _operation_with_alignment [a, b] "subtract"

/-- Embedding of `multiply_with_alignment` (variadic in the source). -/
def multiply_with_alignment (args : List XObj) : Except PyErr XObj :=
  _operation_with_alignment args "multiply"

/-- Embedding of `divide_with_alignment` (binary in the source). -/
def divide_with_alignment (a b : XObj) : Except PyErr XObj :=
  _operation_with_alignment [a, b] "divide"

/-- Embedding of `power_with_alignment` (binary in the source). -/
def power_with_alignment (a b : XObj) : Except PyErr XObj :=
  _operation_with_alignment [a, b] "power"

/-- C10 (amended): for exactly two operands every one of the five helpers
raises the alignment `ValueError` when the coordinate indices differ and
returns the elementwise arithmetic of the aligned operands when they are
identical; the variadic helpers (`add`/`multiply`) called with three or
more operands raise a `TypeError` from the binary dunder dispatch even when
all operands are aligned. -/
theorem operations_with_alignment_pairs (a b : XObj) :
    (a.coords ≠ b.coords →
      add_with_alignment [a, b] = .error (.valueError align_err_msg) ∧
      subtract_with_alignment a b = .error (.valueError align_err_msg) ∧
      multiply_with_alignment [a, b] = .error (.valueError align_err_msg) ∧
      divide_with_alignment a b = .error (.valueError align_err_msg) ∧
      power_with_alignment a b = .error (.valueError align_err_msg)) ∧
    (a.coords = b.coords →
      add_with_alignment [a, b] =
        .ok { coords := a.coords, data := List.zipWith (fun x y => x + y) a.data b.data } ∧
      subtract_with_alignment a b =
        .ok { coords := a.coords, data := List.zipWith (fun x y => x - y) a.data b.data } ∧
      multiply_with_alignment [a, b] =
        .ok { coords := a.coords, data := List.zipWith (fun x y => x * y) a.data b.data } ∧
      divide_with_alignment a b =
        .ok { coords := a.coords, data := List.zipWith (fun x y => x / y) a.data b.data } ∧
      power_with_alignment a b =
        .ok { coords := a.coords, data := List.zipWith powQ a.data b.data }) ∧
    (∀ c : XObj, a.coords = b.coords → b.coords = c.coords →
      add_with_alignment [a, b, c] =
        .error (.typeError ("takes 2 positional arguments but " ++
          toString (3 : ℕ) ++ " were given")) ∧
      multiply_with_alignment [a, b, c] =
        .error (.typeError ("takes 2 positional arguments but " ++
          toString (3 : ℕ) ++ " were given"))) := by
  refine ⟨fun hne => ?_, fun heq => ?_, fun c hab hbc => ?_⟩
  · have hba : ¬ (b.coords = a.coords) := fun he => hne he.symm
    refine ⟨?_, ?_, ?_, ?_, ?_⟩ <;>
      simp [add_with_alignment, subtract_with_alignment, multiply_with_alignment,
        divide_with_alignment, power_with_alignment, _operation_with_alignment,
        check_alignment, hba]
  · refine ⟨?_, ?_, ?_, ?_, ?_⟩ <;>
      simp [add_with_alignment, subtract_with_alignment, multiply_with_alignment,
        divide_with_alignment, power_with_alignment, _operation_with_alignment,
        check_alignment, heq]
  · constructor <;>
      simp [add_with_alignment, multiply_with_alignment, _operation_with_alignment,
        check_alignment, hab, hbc, hab.trans hbc]

/-- Witness for C10 (amended) at concrete operands: a misaligned pair, an
aligned pair, and an aligned triple. -/
theorem operations_with_alignment_pairs_witness :
    (XObj.mk [0] [1]).coords ≠ (XObj.mk [1] [2]).coords ∧
    add_with_alignment [XObj.mk [0] [1], XObj.mk [1] [2]] =
      .error (.valueError align_err_msg) ∧
    subtract_with_alignment (XObj.mk [0] [1]) (XObj.mk [0] [3]) =
      .ok { coords := (XObj.mk [0] [1]).coords,
            data := List.zipWith (fun x y => x - y) [(1 : ℚ)] [(3 : ℚ)] } ∧
    add_with_alignment [XObj.mk [0] [1], XObj.mk [0] [1], XObj.mk [0] [1]] =
      .error (.typeError ("takes 2 positional arguments but " ++
        toString (3 : ℕ) ++ " were given")) :=
  ⟨by decide,
   ((operations_with_alignment_pairs (XObj.mk [0] [1]) (XObj.mk [1] [2])).1 (by decide)).1,
   ((operations_with_alignment_pairs (XObj.mk [0] [1]) (XObj.mk [0] [3])).2.1 rfl).2.1,
   (((operations_with_alignment_pairs (XObj.mk [0] [1]) (XObj.mk [0] [1])).2.2
      (XObj.mk [0] [1]) rfl rfl)).1⟩

/-- C10 (counterexample): three operands with *identical* coordinate
indices are accepted by the alignment check, yet `add_with_alignment`
raises a `TypeError` from the binary `__add__` dispatch instead of
returning their elementwise sum — the claim fails for tuples of more than
two operands. -/
theorem add_with_alignment_three_counterexample :
    check_alignment [XObj.mk [0] [1], XObj.mk [0] [2], XObj.mk [0] [3]] =
      some [XObj.mk [0] [1], XObj.mk [0] [2], XObj.mk [0] [3]] ∧
    add_with_alignment [XObj.mk [0] [1], XObj.mk [0] [2], XObj.mk [0] [3]] =
      .error (.typeError ("takes 2 positional arguments but " ++
        toString (3 : ℕ) ++ " were given")) := by
  exact ⟨by decide, by decide⟩

end GeneralBackend
